import Mathlib

/-!
# CLI output routines of GDB (`gdb/cli-out.c`)

A shallow embedding of the CLI `ui_out` implementation: the field
formatter (`cli_field_string` and the functions that end up there), the
table protocol with its `suppress_output` flag, and text / message
emission.

Machine state is passed explicitly.  A `World` holds

* the `struct ui_out_data` of every `struct ui_out` object, indexed by the
  object's address,
* the global `uiout` pointer that `field_separator` reads,
* the log of everything that reached a `struct ui_file`, in program order.

C strings are `List Char`; a `const char *` that may be `NULL` is an
`Option (List Char)`.  A C `int` is an `Int` in the range
`INT_MIN .. INT_MAX`, and the one place where an out-of-range value is
stored into an `int` wraps explicitly (`wrap_int`).
-/

set_option linter.unusedVariables false

namespace CliOut

/-! ## Machine integers -/

/-- Smallest value of the C type int (32 bits). -/
def INT_MIN : Int := -2147483648

/-- Largest value of the C type int (32 bits). -/
def INT_MAX : Int := 2147483647

/-- Storing an integer into a 32 bit int keeps its low 32 bits, read in two's
complement. -/
def wrap_int (z : Int) : Int := (z + 2147483648) % 4294967296 - 2147483648

/-- C integer division, which truncates toward zero. -/
def c_div (a b : Int) : Int := Int.tdiv a b

/-! ## Data model -/

/-- The type enum ui_align of ui-out.h. -/
inductive ui_align
  | ui_left
  | ui_center
  | ui_right
  | ui_noalign
  deriving DecidableEq, Repr

open ui_align

/-- What a struct ui_file receives.  Streams are named by their address. -/
inductive ui_event
  | putc (stream : Nat) (c : Char)
  | flush (stream : Nat)
  | wrap (indent : Option (List Char))
  deriving DecidableEq, Repr

/-- The struct ui_out_data of cli-out.c. -/
structure ui_out_data where
  stream : Nat
  suppress_output : Int
  deriving DecidableEq, Repr

/-- The machine state the output functions act on. -/
structure World where
  /-- the ui_out_data that each struct ui_out object points to -/
  data : Nat → ui_out_data
  /-- what ui_out_get_verblvl answers for each struct ui_out object -/
  verblvl : Nat → Int
  /-- the global variable uiout -/
  uiout : Nat
  /-- everything written to any stream so far, oldest first -/
  events : List ui_event

/-- The characters a stream has received, in order. -/
def sink_content (w : World) (stream : Nat) : List Char :=
  w.events.filterMap fun e =>
    match e with
    | ui_event.putc s c => if s = stream then some c else none
    | _ => none

/-- The events that were logged between the state w and the later state w2. -/
def emitted (w w2 : World) : List ui_event :=
  w2.events.drop w.events.length

/-- Append events to the log. -/
def World.log (w : World) (es : List ui_event) : World :=
  { w with events := w.events ++ es }

/-- The events of writing the characters of a string to a stream. -/
def put_string (stream : Nat) (s : List Char) : List ui_event :=
  s.map (ui_event.putc stream)

/-- The events of writing n spaces to a stream. -/
def put_spaces (stream : Nat) (n : Nat) : List ui_event :=
  List.replicate n (ui_event.putc stream ' ')

/-! ## Collaborators that live outside cli-out.c -/

/-- Modelled from the spec: the function ui_out_data of ui-out.c, the accessor
for the implementation data of a ui_out object (the sink reference and the
suppression flag of the render context). -/
def ui_out_data_of (w : World) (uiout : Nat) : ui_out_data := w.data uiout

/-- Modelled from the spec: ui_out_get_verblvl of ui-out.c, the verbosity
threshold of the render context. -/
def ui_out_get_verblvl (w : World) (uiout : Nat) : Int := w.verblvl uiout

/-- Modelled from the spec: fputs_filtered of utils.c forwards the string to
the sink. -/
def fputs_filtered (w : World) (string : List Char) (stream : Nat) : World :=
  w.log (put_string stream string)

/-- Modelled from the spec: fputc_filtered of utils.c writes one character to
the sink. -/
def fputc_filtered (w : World) (c : Char) (stream : Nat) : World :=
  w.log [ui_event.putc stream c]

/-- Modelled from the spec: vfprintf_filtered of utils.c forwards the
formatted result to the sink.  The argument formatted is the expansion of the
format string with its arguments. -/
def vfprintf_filtered (w : World) (stream : Nat) (formatted : List Char) : World :=
  w.log (put_string stream formatted)

/-- Modelled from the spec: vfprintf_unfiltered of utils.c writes the
formatted result through the unfiltered channel of the sink. -/
def vfprintf_unfiltered (w : World) (stream : Nat) (formatted : List Char) : World :=
  w.log (put_string stream formatted)

/-- Modelled from the spec: print_spaces_filtered of utils.c writes the given
number of spaces to the sink. -/
def print_spaces_filtered (w : World) (n : Int) (stream : Nat) : World :=
  w.log (put_spaces stream n.toNat)

/-- Modelled from the spec: wrap_here of utils.c tells the sink that a soft
line-wrap boundary may occur here; no character is written. -/
def wrap_here (w : World) (indent : Option (List Char)) : World :=
  w.log [ui_event.wrap indent]

/-- Modelled from the spec: gdb_flush of ui-file.c flushes the sink. -/
def gdb_flush (w : World) (stream : Nat) : World :=
  w.log [ui_event.flush stream]

/-- Result of a function that contains a gdb_assert: either it returned, or
the assertion failed and reported an internal error in the given state. -/
inductive Outcome
  | returned (w : World)
  | internal_error (w : World)

/-- The state an outcome carries. -/
def Outcome.world : Outcome → World
  | Outcome.returned w => w
  | Outcome.internal_error w => w

/-- Whether the outcome is a failed assertion. -/
def Outcome.failed : Outcome → Bool
  | Outcome.returned _ => false
  | Outcome.internal_error _ => true

/-- Modelled from the spec: the text the C library function sprintf writes for
the conversion %d, the canonical base 10 representation of the value, most
significant digit first, with a leading minus sign for a negative value. -/
def sprintf_d : Int → List Char
  | Int.ofNat n => Nat.toDigits 10 n
  | Int.negSucc n => '-' :: Nat.toDigits 10 (n + 1)

/-! ## The CLI output functions -/

/-- The type enum ui_out_type of ui-out.h. -/
inductive ui_out_type
  | ui_out_type_tuple
  | ui_out_type_list
  deriving DecidableEq, Repr

/-- The assignment data->suppress_output = v on the data of a ui_out object. -/
def set_suppress_output (w : World) (uiout : Nat) (v : Int) : World :=
  { w with data := Function.update w.data uiout { w.data uiout with suppress_output := v } }

/-- Mark beginning of a table. -/
def cli_table_begin (w : World) (uiout : Nat) (nbrofcols nr_rows : Int)
    (tblid : Option (List Char)) : Outcome :=
  let data := ui_out_data_of w uiout
  if nr_rows = 0 then
    Outcome.returned (set_suppress_output w uiout 1)
  else if data.suppress_output = 0 then
    Outcome.returned w
  else
    Outcome.internal_error w

/-- Mark end of a table. -/
def cli_table_end (w : World) (uiout : Nat) : World :=
  set_suppress_output w uiout 0

/-- Mark beginning of a list. -/
def cli_begin (w : World) (uiout : Nat) (type : ui_out_type) (level : Int)
    (id : Option (List Char)) : World :=
  let data := ui_out_data_of w uiout
  if data.suppress_output ≠ 0 then w else w

/-- Mark end of a list. -/
def cli_end (w : World) (uiout : Nat) (type : ui_out_type) (level : Int) : World :=
  let data := ui_out_data_of w uiout
  if data.suppress_output ≠ 0 then w else w

/-- The function cli_spaces. -/
def cli_spaces (w : World) (uiout : Nat) (numspaces : Int) : World :=
  let data := ui_out_data_of w uiout
  if data.suppress_output ≠ 0 then w
  else print_spaces_filtered w numspaces data.stream

/-- The function cli_text. -/
def cli_text (w : World) (uiout : Nat) (string : List Char) : World :=
  let data := ui_out_data_of w uiout
  if data.suppress_output ≠ 0 then w
  else fputs_filtered w string data.stream

/-- The function cli_text_fmt; formatted is the expansion of format with args. -/
def cli_text_fmt (w : World) (uiout : Nat) (formatted : List Char) : World :=
  let data := ui_out_data_of w uiout
  if data.suppress_output ≠ 0 then w
  else vfprintf_filtered w data.stream formatted

/-- The function cli_message; formatted is the expansion of format with args. -/
def cli_message (w : World) (uiout : Nat) (verbosity : Int) (formatted : List Char) : World :=
  let data := ui_out_data_of w uiout
  if data.suppress_output ≠ 0 then w
  else if ui_out_get_verblvl w uiout ≥ verbosity then
    vfprintf_unfiltered w data.stream formatted
  else w

/-- The function cli_wrap_hint. -/
def cli_wrap_hint (w : World) (uiout : Nat) (identstring : Option (List Char)) : World :=
  let data := ui_out_data_of w uiout
  if data.suppress_output ≠ 0 then w
  else wrap_here w identstring

/-- The function cli_flush. -/
def cli_flush (w : World) (uiout : Nat) : World :=
  let data := ui_out_data_of w uiout
  gdb_flush w data.stream

/-- Like cli_field_fmt, but does not insert a separator; formatted is the
expansion of format with the variable arguments. -/
def out_field_fmt (w : World) (uiout : Nat) (fldno : Int) (fldname : Option (List Char))
    (formatted : List Char) : World :=
  let data := ui_out_data_of w uiout
  vfprintf_filtered w data.stream formatted

/-- The function field_separator.  It has no parameter: the ui_out it reads is
the global variable uiout. -/
def field_separator (w : World) : World :=
  let data := ui_out_data_of w w.uiout
  fputc_filtered w ' ' data.stream

/-- Modelled from the spec: ui_out_spaces of ui-out.c, which emits the spaces
through the spaces entry of the implementation vector of the ui_out object;
cli_ui_out_impl puts cli_spaces there. -/
def ui_out_spaces (w : World) (uiout : Nat) (numspaces : Int) : World :=
  cli_spaces w uiout numspaces

/-- The values of the locals before and after that cli_field_string has
computed when it reaches its output statements. -/
def field_padding (width : Int) (align : ui_align) (string : Option (List Char)) :
    Int × Int :=
  match string with
  | some s =>
    if align ≠ ui_noalign then
      let before := wrap_int (width - (s.length : Int))
      if before ≤ 0 then (0, 0)
      else if align = ui_right then (before, 0)
      else if align = ui_left then (0, before)
      else (before - c_div before 2, c_div before 2)
    else (0, 0)
  | none => (0, 0)

/-- Other specific cli_field_* end up here so alignment and field separators
are both handled by cli_field_string. -/
def cli_field_string (w : World) (uiout : Nat) (fldno width : Int) (align : ui_align)
    (fldname string : Option (List Char)) : World :=
  let data := ui_out_data_of w uiout
  if data.suppress_output ≠ 0 then w
  else
    let pad := field_padding width align string
    let w1 := if pad.1 ≠ 0 then ui_out_spaces w uiout pad.1 else w
    let w2 :=
      match string with
      | some s => out_field_fmt w1 uiout fldno fldname s
      | none => w1
    let w3 := if pad.2 ≠ 0 then ui_out_spaces w2 uiout pad.2 else w2
    if align ≠ ui_noalign then field_separator w3 else w3

/-- Output an int field. -/
def cli_field_int (w : World) (uiout : Nat) (fldno width : Int) (alignment : ui_align)
    (fldname : Option (List Char)) (value : Int) : World :=
  let data := ui_out_data_of w uiout
  if data.suppress_output ≠ 0 then w
  else
    let buffer := sprintf_d value
    cli_field_string w uiout fldno width alignment fldname (some buffer)

/-- Used to omit a field. -/
def cli_field_skip (w : World) (uiout : Nat) (fldno width : Int) (alignment : ui_align)
    (fldname : Option (List Char)) : World :=
  let data := ui_out_data_of w uiout
  if data.suppress_output ≠ 0 then w
  else cli_field_string w uiout fldno width alignment fldname (some [])

/-- This is the only field function that does not align; formatted is the
expansion of format with args. -/
def cli_field_fmt (w : World) (uiout : Nat) (fldno width : Int) (align : ui_align)
    (fldname : Option (List Char)) (formatted : List Char) : World :=
  let data := ui_out_data_of w uiout
  if data.suppress_output ≠ 0 then w
  else
    let w1 := vfprintf_filtered w data.stream formatted
    if align ≠ ui_noalign then field_separator w1 else w1

/-- Mark beginning of a table body. -/
def cli_table_body (w : World) (uiout : Nat) : World :=
  let data := ui_out_data_of w uiout
  if data.suppress_output ≠ 0 then w
  else cli_text w uiout ['\n']

/-- Specify table header. -/
def cli_table_header (w : World) (uiout : Nat) (width : Int) (alignment : ui_align)
    (col_name colhdr : Option (List Char)) : World :=
  let data := ui_out_data_of w uiout
  if data.suppress_output ≠ 0 then w
  else cli_field_string w uiout 0 width alignment none colhdr

/-- Set up the private members of a new ui_out object.  The argument p is the address of
the ui_out object that ui_out_new hands back. -/
def cli_out_new (w : World) (p : Nat) (stream : Nat) : World :=
  { w with data := Function.update w.data p { stream := stream, suppress_output := 0 } }

/-! ## Sequences of calls on one ui_out object -/

/-- One call through the implementation vector cli_ui_out_impl. -/
inductive Call
  | table_begin (nbrofcols nr_rows : Int) (tblid : Option (List Char))
  | table_body
  | table_end
  | table_header (width : Int) (alignment : ui_align) (col_name colhdr : Option (List Char))
  | list_begin (type : ui_out_type) (level : Int) (id : Option (List Char))
  | list_end (type : ui_out_type) (level : Int)
  | field_int (fldno width : Int) (alignment : ui_align) (fldname : Option (List Char))
      (value : Int)
  | field_skip (fldno width : Int) (alignment : ui_align) (fldname : Option (List Char))
  | field_string (fldno width : Int) (align : ui_align) (fldname string : Option (List Char))
  | field_fmt (fldno width : Int) (align : ui_align) (fldname : Option (List Char))
      (formatted : List Char)
  | spaces (numspaces : Int)
  | text (string : List Char)
  | text_fmt (formatted : List Char)
  | message (verbosity : Int) (formatted : List Char)
  | wrap_hint (identstring : Option (List Char))
  | flush

/-- Perform one call on the ui_out object at the given address. -/
def run_call (w : World) (uiout : Nat) : Call → Outcome
  | Call.table_begin n r t => cli_table_begin w uiout n r t
  | Call.table_body => Outcome.returned (cli_table_body w uiout)
  | Call.table_end => Outcome.returned (cli_table_end w uiout)
  | Call.table_header wd a cn ch => Outcome.returned (cli_table_header w uiout wd a cn ch)
  | Call.list_begin t l i => Outcome.returned (cli_begin w uiout t l i)
  | Call.list_end t l => Outcome.returned (cli_end w uiout t l)
  | Call.field_int f wd a n v => Outcome.returned (cli_field_int w uiout f wd a n v)
  | Call.field_skip f wd a n => Outcome.returned (cli_field_skip w uiout f wd a n)
  | Call.field_string f wd a n s => Outcome.returned (cli_field_string w uiout f wd a n s)
  | Call.field_fmt f wd a n s => Outcome.returned (cli_field_fmt w uiout f wd a n s)
  | Call.spaces n => Outcome.returned (cli_spaces w uiout n)
  | Call.text s => Outcome.returned (cli_text w uiout s)
  | Call.text_fmt s => Outcome.returned (cli_text_fmt w uiout s)
  | Call.message v s => Outcome.returned (cli_message w uiout v s)
  | Call.wrap_hint i => Outcome.returned (cli_wrap_hint w uiout i)
  | Call.flush => Outcome.returned (cli_flush w uiout)

/-- Perform the calls in order; a failed assertion ends the sequence. -/
def run_calls (w : World) (uiout : Nat) : List Call → Outcome
  | [] => Outcome.returned w
  | c :: cs =>
    match run_call w uiout c with
    | Outcome.returned w2 => run_calls w2 uiout cs
    | Outcome.internal_error w2 => Outcome.internal_error w2

/-- The calls the table protocol allows between table begin and table end:
table headers, the table body mark and the four field functions. -/
def Call.is_table_content : Call → Bool
  | Call.table_header _ _ _ _ => true
  | Call.table_body => true
  | Call.field_int _ _ _ _ _ => true
  | Call.field_skip _ _ _ _ => true
  | Call.field_string _ _ _ _ _ => true
  | Call.field_fmt _ _ _ _ _ => true
  | _ => false

/-- The column header of one cli_table_header call. -/
structure header_spec where
  width : Int
  alignment : ui_align
  col_name : Option (List Char)
  colhdr : Option (List Char)

/-- The cli_table_header call for a column header. -/
def header_spec.call (h : header_spec) : Call :=
  Call.table_header h.width h.alignment h.col_name h.colhdr

/-- The rendered header field: what cli_table_header writes for the column
header when called in the state w. -/
def rendered_header (w : World) (c : Nat) (h : header_spec) : List ui_event :=
  emitted w (cli_table_header w c h.width h.alignment h.col_name h.colhdr)

/-- What cli_field_string appends to the log on a ui_out object that is not
suppressed, given the stream of the object and the stream of the global
uiout. -/
def field_events (stream gstream : Nat) (width : Int) (align : ui_align)
    (string : Option (List Char)) : List ui_event :=
  put_spaces stream (field_padding width align string).1.toNat
    ++ (match string with
        | some s => put_string stream s
        | none => [])
    ++ put_spaces stream (field_padding width align string).2.toNat
    ++ (if align ≠ ui_noalign then [ui_event.putc gstream ' '] else [])

/-- The function cli_quoted_out_new.  The argument p is the address of the
ui_out object that ui_out_new hands back; mi_console_file_new, which wraps the
raw stream and lives in mi-console.c, is a parameter. -/
def cli_quoted_out_new (mi_console_file_new : Nat → List Char → Nat) (w : World)
    (p : Nat) (raw : Nat) : World :=
  { w with
    data := Function.update w.data p
      { stream := mi_console_file_new raw ['~'], suppress_output := 0 } }

/-- The size in bytes of the buffer that cli_field_int hands to sprintf. -/
def cli_field_int_buffer_size : Nat := 20

/-- The bytes sprintf stores for the conversion %d: the characters and the
terminating NUL. -/
def sprintf_d_bytes (value : Int) : Nat := (sprintf_d value).length + 1

/-- The number of flush requests a stream has received. -/
def flush_count (w : World) (stream : Nat) : Nat :=
  (w.events.filter fun e => e = ui_event.flush stream).length

/-- Whether a call is cli_table_begin or cli_table_end. -/
def Call.is_table_begin_or_end : Call → Bool
  | Call.table_begin _ _ _ => true
  | Call.table_end => true
  | _ => false

/-- The characters that a list of events puts on a stream. -/
def stream_chars (es : List ui_event) (stream : Nat) : List Char :=
  es.filterMap fun e =>
    match e with
    | ui_event.putc s c => if s = stream then some c else none
    | _ => none

/-- Whether a call is cli_table_end. -/
def Call.is_table_end : Call → Bool
  | Call.table_end => true
  | _ => false

/-- Whether a call is a cli_table_begin with nr_rows = 0. -/
def Call.is_zero_row_begin : Call → Bool
  | Call.table_begin _ nr_rows _ => decide (nr_rows = 0)
  | _ => false

/-- The calls after the most recent cli_table_end, or all the calls if there
was none. -/
def since_last_table_end (cs : List Call) : List Call :=
  (cs.reverse.takeWhile fun x => !x.is_table_end).reverse

/-- Whether a cli_table_begin with nr_rows = 0 has occurred after the most
recent cli_table_end (or at all, if there was no cli_table_end). -/
def zero_row_table_pending (cs : List Call) : Bool :=
  (since_last_table_end cs).any Call.is_zero_row_begin

/-- A state for examples: the ui_out object 0 writes to stream 0 and is the
global uiout, the ui_out object 1 writes to stream 1, nothing is suppressed
and nothing has been written. -/
def world0 : World :=
  { data := fun p => { stream := p, suppress_output := 0 }
    verblvl := fun _ => 0
    uiout := 0
    events := [] }

end CliOut

/-!
# Struct return convention of FreeBSD/Alpha (`gdb/alphafbsd-tdep.c`)
-/

namespace AlphaFbsd

/-- The type enum type_code of gdbtypes.h.  The function below tells
TYPE_CODE_STRUCT and TYPE_CODE_UNION from all other codes. -/
inductive type_code
  | TYPE_CODE_UNDEF
  | TYPE_CODE_PTR
  | TYPE_CODE_ARRAY
  | TYPE_CODE_STRUCT
  | TYPE_CODE_UNION
  | TYPE_CODE_ENUM
  | TYPE_CODE_FUNC
  | TYPE_CODE_INT
  | TYPE_CODE_FLT
  | TYPE_CODE_VOID
  | TYPE_CODE_other (code : Nat)
  deriving DecidableEq, Repr

open type_code

/-- One entry of the field vector of a struct type: what the accessors
TYPE_FIELD_BITPOS and TYPE_FIELD_BITSIZE read. -/
structure field where
  bitpos : Int
  bitsize : Int
  deriving DecidableEq, Repr

/-- The part of struct type of gdbtypes.h that the function reads: TYPE_LENGTH,
TYPE_CODE and the field vector, whose length is TYPE_NFIELDS. -/
structure gdb_type where
  length : Nat
  code : type_code
  fields : List field
  deriving DecidableEq, Repr

/-- The for loop of alphafbsd_use_struct_convention over the fields that are
still to be visited, together with the return 0 that follows it. -/
def integer_like_loop : List field → Int
  | [] => 0
  | f :: rest =>
    if f.bitpos ≠ 0 ∧ f.bitsize = 0 then 1
    else integer_like_loop rest

/-- The function alphafbsd_use_struct_convention.  The value of the macro
REGISTER_SIZE, which the target headers define, is a parameter. -/
def alphafbsd_use_struct_convention (REGISTER_SIZE : Nat) (gcc_p : Int) (type : gdb_type) :
    Int :=
  if type.length > REGISTER_SIZE then 1
  else
    let code := type.code
    if code ≠ TYPE_CODE_STRUCT ∧ code ≠ TYPE_CODE_UNION then 1
    else integer_like_loop type.fields

end AlphaFbsd

namespace CliOut

open ui_align

/-! ## Basic facts about the log -/

theorem log_nil (w : World) : w.log [] = w := by
  cases w; simp [World.log]

theorem log_log (w : World) (a b : List ui_event) : (w.log a).log b = w.log (a ++ b) := by
  simp [World.log, List.append_assoc]

theorem log_data (w : World) (a : List ui_event) : (w.log a).data = w.data := rfl

theorem log_uiout (w : World) (a : List ui_event) : (w.log a).uiout = w.uiout := rfl

theorem log_events (w : World) (a : List ui_event) : (w.log a).events = w.events ++ a := rfl

theorem emitted_log (w : World) (a : List ui_event) : emitted w (w.log a) = a := by
  simp [emitted, World.log]

/-- The output statements of cli_field_string on a ui_out object that is not
suppressed, as one append to the log: the spaces before, the string unless it
is NULL, the spaces after (all on the stream of the object), and then for an
aligned field the separator, on the stream of the global uiout. -/
theorem cli_field_string_eq (w : World) (c : Nat) (fldno width : Int) (align : ui_align)
    (fldname string : Option (List Char)) (hsup : (w.data c).suppress_output = 0) :
    cli_field_string w c fldno width align fldname string =
      w.log (put_spaces (w.data c).stream (field_padding width align string).1.toNat
        ++ (match string with
            | some s => put_string (w.data c).stream s
            | none => [])
        ++ put_spaces (w.data c).stream (field_padding width align string).2.toNat
        ++ (if align ≠ ui_noalign then [ui_event.putc (w.data w.uiout).stream ' '] else [])) := by
  have hsp : ∀ (v : World) (n : Int), (v.data c).suppress_output = 0 →
      (if n ≠ 0 then ui_out_spaces v c n else v) = v.log (put_spaces (v.data c).stream n.toNat) := by
    intro v n hv
    by_cases hn : n = 0
    · subst hn
      simp [put_spaces, log_nil]
    · simp [hn, ui_out_spaces, cli_spaces, ui_out_data_of, hv, print_spaces_filtered]
  unfold cli_field_string
  simp only [ui_out_data_of, hsup, ne_eq, not_true_eq_false, if_false]
  rw [hsp w _ hsup]
  cases string with
  | none =>
    simp only []
    rw [hsp _ _ (by simpa [log_data] using hsup)]
    by_cases ha : align = ui_noalign
    · simp [ha, log_log, log_data]
    · simp [ha, log_log, log_data, log_uiout, field_separator, fputc_filtered, ui_out_data_of]
  | some s =>
    simp only [out_field_fmt, vfprintf_filtered, ui_out_data_of]
    rw [hsp _ _ (by simpa [log_data] using hsup)]
    by_cases ha : align = ui_noalign
    · simp [ha, log_log, log_data]
    · simp [ha, log_log, log_data, log_uiout, field_separator, fputc_filtered, ui_out_data_of]

/-- A difference that fits the type int is stored unchanged. -/
theorem wrap_int_of_range (z : Int) (hlo : INT_MIN ≤ z) (hhi : z ≤ INT_MAX) : wrap_int z = z := by
  unfold wrap_int
  unfold INT_MIN at hlo
  unfold INT_MAX at hhi
  omega

/-- The locals before and after of cli_field_string when the string fits
the width. -/
theorem field_padding_fits (width : Int) (align : ui_align) (s : List Char)
    (hlen : (s.length : Int) ≤ width) (hmax : width ≤ INT_MAX) :
    field_padding width align (some s) =
      match align with
      | ui_noalign => (0, 0)
      | ui_right => (width - s.length, 0)
      | ui_left => (0, width - s.length)
      | ui_center => (width - s.length - (width - s.length) / 2, (width - s.length) / 2) := by
  have hw : wrap_int (width - (s.length : Int)) = width - s.length := by
    apply wrap_int_of_range
    · unfold INT_MIN; omega
    · unfold INT_MAX at *; omega
  simp only [field_padding, hw]
  by_cases h0 : width - (s.length : Int) ≤ 0
  · have : width - (s.length : Int) = 0 := by omega
    cases align <;> simp [this]
  · have hdiv : c_div (width - (s.length : Int)) 2 = (width - s.length) / 2 := by
      unfold c_div
      exact Int.tdiv_eq_ediv (by omega) (by omega)
    cases align <;> simp [h0, hdiv]

/-! ## The field formatter -/

/-- C1: on a ui_out object that is not suppressed, for a string s and a width
w of type int with w >= length(s), cli_field_string writes, on the stream of
the object, w - length(s) spaces and then s for ui_right; s and then
w - length(s) spaces for ui_left; and for ui_center, with pad = w - length(s),
pad - pad / 2 spaces, then s, then pad / 2 spaces (floor).  The one separator
written by field_separator follows, and nothing else changes. -/
theorem cli_field_string_alignment (w : World) (c : Nat) (fldno width : Int)
    (fldname : Option (List Char)) (s : List Char)
    (hsup : (w.data c).suppress_output = 0)
    (hlen : (s.length : Int) ≤ width) (hmax : width ≤ INT_MAX) :
    cli_field_string w c fldno width ui_right fldname (some s) =
        w.log (put_spaces (w.data c).stream (width.toNat - s.length)
          ++ put_string (w.data c).stream s
          ++ [ui_event.putc (w.data w.uiout).stream ' '])
    ∧ cli_field_string w c fldno width ui_left fldname (some s) =
        w.log (put_string (w.data c).stream s
          ++ put_spaces (w.data c).stream (width.toNat - s.length)
          ++ [ui_event.putc (w.data w.uiout).stream ' '])
    ∧ cli_field_string w c fldno width ui_center fldname (some s) =
        w.log (put_spaces (w.data c).stream
            ((width.toNat - s.length) - (width.toNat - s.length) / 2)
          ++ put_string (w.data c).stream s
          ++ put_spaces (w.data c).stream ((width.toNat - s.length) / 2)
          ++ [ui_event.putc (w.data w.uiout).stream ' ']) := by
  have e1 : (width - (s.length : Int)).toNat = width.toNat - s.length := by omega
  have e2 : ((width - (s.length : Int)) / 2).toNat = (width.toNat - s.length) / 2 := by omega
  have e3 : (width - (s.length : Int) - (width - (s.length : Int)) / 2).toNat
      = (width.toNat - s.length) - (width.toNat - s.length) / 2 := by omega
  refine ⟨?_, ?_, ?_⟩
  · rw [cli_field_string_eq w c fldno width ui_right fldname (some s) hsup,
      field_padding_fits width ui_right s hlen hmax]
    simp [e1, put_spaces]
  · rw [cli_field_string_eq w c fldno width ui_left fldname (some s) hsup,
      field_padding_fits width ui_left s hlen hmax]
    simp [e1, put_spaces]
  · rw [cli_field_string_eq w c fldno width ui_center fldname (some s) hsup,
      field_padding_fits width ui_center s hlen hmax]
    simp [e2, e3]

/-- Witness for C1: width 4, ui_center and the string ab on the ui_out object
that is also the global uiout give one space, ab, one space and the separator
on its stream. -/
theorem cli_field_string_alignment_witness :
    (world0.data 0).suppress_output = 0 ∧ ((['a', 'b'].length : Nat) : Int) ≤ 4 ∧ (4 : Int) ≤ INT_MAX
    ∧ sink_content (cli_field_string world0 0 0 4 ui_center (some ['s']) (some ['a', 'b'])) 0
        = [' ', 'a', 'b', ' ', ' '] :=
  ⟨by decide, by decide, by decide, by
    rw [(cli_field_string_alignment world0 0 0 4 (some ['s']) ['a', 'b']
      (by decide) (by decide) (by decide)).2.2]
    decide⟩

/-- The failing input of C2: the width INT_MIN is smaller than the length of
the string a, the difference INT_MIN - 1 does not fit the int before, the
stored value is INT_MAX, and cli_field_string writes 2147483647 spaces in
front of the string. -/
theorem cli_field_string_pads_when_difference_wraps :
    INT_MIN < ((['a'].length : Nat) : Int)
    ∧ field_padding INT_MIN ui_right (some ['a']) = (2147483647, 0)
    ∧ cli_field_string world0 0 0 INT_MIN ui_right none (some ['a']) =
        world0.log (put_spaces 0 2147483647 ++ [ui_event.putc 0 'a', ui_event.putc 0 ' ']) := by
  have hp : field_padding INT_MIN ui_right (some ['a']) = (2147483647, 0) := by decide
  refine ⟨by decide, hp, ?_⟩
  rw [cli_field_string_eq world0 0 0 INT_MIN ui_right none (some ['a']) rfl, hp]
  have h1 : (world0.data 0).stream = 0 := rfl
  have h2 : world0.uiout = 0 := rfl
  have h3 : ((2147483647, 0) : Int × Int).1.toNat = 2147483647 := rfl
  have h4 : ((2147483647, 0) : Int × Int).2.toNat = 0 := rfl
  rw [h2, h1, h3, h4]
  show world0.log (put_spaces 0 2147483647 ++ put_string 0 ['a'] ++ put_spaces 0 0 ++ _) = _
  have h5 : put_spaces 0 0 = [] := rfl
  have h6 : put_string 0 ['a'] = [ui_event.putc 0 'a'] := rfl
  rw [h5, h6]
  simp only [ne_eq, not_false_eq_true, if_true, List.append_nil, List.append_assoc,
    List.singleton_append, reduceCtorEq]

/-- Where the difference width - length(s) fits the type int and is not
positive, cli_field_string writes the string without any padding. -/
theorem cli_field_string_no_padding_in_range (w : World) (c : Nat) (fldno width : Int)
    (align : ui_align) (fldname : Option (List Char)) (s : List Char)
    (hsup : (w.data c).suppress_output = 0)
    (hlt : width < (s.length : Int)) (hmin : INT_MIN ≤ width - (s.length : Int)) :
    cli_field_string w c fldno width align fldname (some s) =
      w.log (put_string (w.data c).stream s
        ++ (if align ≠ ui_noalign then [ui_event.putc (w.data w.uiout).stream ' '] else [])) := by
  have hw : wrap_int (width - (s.length : Int)) = width - s.length := by
    apply wrap_int_of_range _ hmin
    unfold INT_MAX; omega
  have hp : field_padding width align (some s) = (0, 0) := by
    simp only [field_padding, hw]
    have : width - (s.length : Int) ≤ 0 := by omega
    simp [this]
  rw [cli_field_string_eq w c fldno width align fldname (some s) hsup, hp]
  simp [put_spaces]

/-- C3: on a ui_out object that is not suppressed, for every string s and
every width, an aligned field (alignment other than ui_noalign) is written as
padding, s, padding, and then exactly one separator, a single space, as the
last character written; with ui_noalign exactly s is written, with no padding
and no separator. -/
theorem cli_field_string_separator (w : World) (c : Nat) (fldno width : Int)
    (fldname : Option (List Char)) (s : List Char)
    (hsup : (w.data c).suppress_output = 0) :
    (∀ align : ui_align, align ≠ ui_noalign →
      cli_field_string w c fldno width align fldname (some s) =
        w.log ((put_spaces (w.data c).stream (field_padding width align (some s)).1.toNat
            ++ put_string (w.data c).stream s
            ++ put_spaces (w.data c).stream (field_padding width align (some s)).2.toNat)
          ++ [ui_event.putc (w.data w.uiout).stream ' ']))
    ∧ cli_field_string w c fldno width ui_noalign fldname (some s) =
        w.log (put_string (w.data c).stream s) := by
  constructor
  · intro align ha
    rw [cli_field_string_eq w c fldno width align fldname (some s) hsup]
    simp [ha]
  · rw [cli_field_string_eq w c fldno width ui_noalign fldname (some s) hsup]
    simp [field_padding, put_spaces]

/-- Witness for C3: the string ab with width 1 on the ui_out object that is the
global uiout, aligned left and not aligned. -/
theorem cli_field_string_separator_witness :
    (world0.data 0).suppress_output = 0
    ∧ sink_content (cli_field_string world0 0 0 1 ui_left none (some ['a', 'b'])) 0
        = ['a', 'b', ' ']
    ∧ sink_content (cli_field_string world0 0 0 1 ui_noalign none (some ['a', 'b'])) 0
        = ['a', 'b'] :=
  ⟨by decide, by
    rw [(cli_field_string_separator world0 0 0 1 none ['a', 'b'] (by decide)).1 ui_left
      (by decide)]
    decide, by
    rw [(cli_field_string_separator world0 0 0 1 none ['a', 'b'] (by decide)).2]
    decide⟩

/-! ## The table protocol -/

/-- While the ui_out object is suppressed, a table header, the table body mark
and every field function return without any effect. -/
theorem run_call_suppressed (w : World) (c : Nat) (x : Call)
    (hsup : (w.data c).suppress_output ≠ 0) (hx : x.is_table_content = true) :
    run_call w c x = Outcome.returned w := by
  cases x <;>
    simp_all [Call.is_table_content, run_call, cli_table_header, cli_table_body, cli_field_int,
      cli_field_skip, cli_field_string, cli_field_fmt, ui_out_data_of]

theorem run_calls_suppressed (w : World) (c : Nat) (cs : List Call)
    (hsup : (w.data c).suppress_output ≠ 0) (hcs : ∀ x ∈ cs, x.is_table_content = true) :
    run_calls w c cs = Outcome.returned w := by
  induction cs with
  | nil => rfl
  | cons x xs ih =>
    have hx := run_call_suppressed w c x hsup (hcs x (List.mem_cons_self x xs))
    simp only [run_calls, hx]
    exact ih (fun y hy => hcs y (List.mem_cons_of_mem x hy))

theorem run_calls_append (w : World) (c : Nat) (a b : List Call) :
    run_calls w c (a ++ b) =
      match run_calls w c a with
      | Outcome.returned w2 => run_calls w2 c b
      | Outcome.internal_error w2 => Outcome.internal_error w2 := by
  induction a generalizing w with
  | nil => rfl
  | cons x xs ih =>
    simp only [List.cons_append, run_calls]
    cases run_call w c x with
    | returned w2 => exact ih w2
    | internal_error w2 => rfl

theorem set_suppress_output_twice (w : World) (c : Nat) (u v : Int) :
    set_suppress_output (set_suppress_output w c u) c v = set_suppress_output w c v := by
  simp [set_suppress_output]

theorem set_suppress_output_same (w : World) (c : Nat) (v : Int)
    (h : (w.data c).suppress_output = v) : set_suppress_output w c v = w := by
  cases w with
  | mk data verblvl uiout events =>
    simp only [set_suppress_output, World.mk.injEq, and_true]
    simp only at h
    funext p
    by_cases hp : p = c
    · subst hp
      simp [← h]
    · simp [Function.update, hp]

theorem cli_out_new_eq (w : World) (c : Nat) :
    cli_out_new w c (w.data c).stream = set_suppress_output w c 0 := rfl

/-- The state after a table with zero rows: table begin, any table content,
table end. -/
theorem run_zero_row_table (w : World) (c : Nat) (nbrofcols : Int)
    (tblid : Option (List Char)) (cs : List Call)
    (hcs : ∀ x ∈ cs, x.is_table_content = true) :
    run_calls w c (Call.table_begin nbrofcols 0 tblid :: cs ++ [Call.table_end]) =
      Outcome.returned (set_suppress_output w c 0) := by
  have h1 : ((set_suppress_output w c 1).data c).suppress_output ≠ 0 := by
    simp [set_suppress_output]
  rw [List.cons_append]
  simp only [run_calls, run_call, cli_table_begin, if_true]
  rw [run_calls_append, run_calls_suppressed _ c cs h1 hcs]
  simp [run_calls, run_call, cli_table_end, set_suppress_output_twice]

/-- C4: starting from a ui_out object that is not suppressed, cli_table_begin
with nr_rows = 0, then any finite sequence of table headers, table body marks
and field calls with arbitrary arguments, then cli_table_end, returns in the
very state it started from: nothing was added to the log, so the content of
every sink is what it was. -/
theorem zero_row_table_writes_nothing (w : World) (c : Nat) (nbrofcols : Int)
    (tblid : Option (List Char)) (cs : List Call)
    (hsup : (w.data c).suppress_output = 0)
    (hcs : ∀ x ∈ cs, x.is_table_content = true) :
    run_calls w c (Call.table_begin nbrofcols 0 tblid :: cs ++ [Call.table_end]) =
        Outcome.returned w
    ∧ ∀ stream : Nat,
        sink_content
          (run_calls w c (Call.table_begin nbrofcols 0 tblid :: cs ++ [Call.table_end])).world
          stream = sink_content w stream := by
  have h := run_zero_row_table w c nbrofcols tblid cs hcs
  rw [set_suppress_output_same w c 0 hsup] at h
  refine ⟨h, ?_⟩
  intro stream
  rw [h]
  rfl

/-- Witness for C4: a table with three columns and zero rows on the ui_out
object 0, with a header, the body mark and one field call of each kind. -/
theorem zero_row_table_writes_nothing_witness :
    (world0.data 0).suppress_output = 0
    ∧ (∀ x ∈ [Call.table_header 4 ui_left none (some ['N', 'u', 'm']), Call.table_body,
          Call.field_int 1 4 ui_right none 7, Call.field_skip 2 3 ui_center none,
          Call.field_string 3 2 ui_left none (some ['x']),
          Call.field_fmt 4 0 ui_noalign none ['y']], x.is_table_content = true)
    ∧ run_calls world0 0 (Call.table_begin 3 0 none ::
          [Call.table_header 4 ui_left none (some ['N', 'u', 'm']), Call.table_body,
            Call.field_int 1 4 ui_right none 7, Call.field_skip 2 3 ui_center none,
            Call.field_string 3 2 ui_left none (some ['x']),
            Call.field_fmt 4 0 ui_noalign none ['y']] ++ [Call.table_end]) =
        Outcome.returned world0 :=
  ⟨by decide, by decide,
    (zero_row_table_writes_nothing world0 0 3 none _ (by decide) (by decide)).1⟩

/-- C5: cli_table_end is a total function (it has no way to fail); from every
state it leaves suppress_output = 0 and adds nothing to the log.  Hence after
a table with zero rows, begun in any state, the ui_out object is in the state
cli_out_new creates for its stream; there cli_table_begin with nr_rows > 0
returns without tripping the assertion, and any calls that follow (headers,
the body mark, fields) run exactly as they run on the newly created object. -/
theorem cli_table_end_restores (w : World) (c : Nat) :
    ((cli_table_end w c).data c).suppress_output = 0
    ∧ (cli_table_end w c).events = w.events
    ∧ run_call w c Call.table_end = Outcome.returned (cli_table_end w c)
    ∧ ∀ (n0 : Int) (t0 : Option (List Char)) (cs : List Call),
        (∀ x ∈ cs, x.is_table_content = true) →
        run_calls w c (Call.table_begin n0 0 t0 :: cs ++ [Call.table_end]) =
            Outcome.returned (cli_out_new w c (w.data c).stream)
        ∧ ∀ (n r : Int) (t : Option (List Char)) (cs2 : List Call), 0 < r →
            cli_table_begin (cli_out_new w c (w.data c).stream) c n r t =
                Outcome.returned (cli_out_new w c (w.data c).stream)
            ∧ run_calls w c
                ((Call.table_begin n0 0 t0 :: cs ++ [Call.table_end])
                  ++ Call.table_begin n r t :: cs2) =
                run_calls (cli_out_new w c (w.data c).stream) c (Call.table_begin n r t :: cs2) := by
  refine ⟨by simp [cli_table_end, set_suppress_output], rfl, rfl, ?_⟩
  intro n0 t0 cs hcs
  have h := run_zero_row_table w c n0 t0 cs hcs
  rw [← cli_out_new_eq] at h
  refine ⟨h, ?_⟩
  intro n r t cs2 hr
  constructor
  · have hr0 : r ≠ 0 := by omega
    simp [cli_table_begin, hr0, ui_out_data_of, cli_out_new]
  · rw [run_calls_append, h]

/-- Witness for C5: on the ui_out object 0 a table with zero rows, then a table
with two rows whose header, body mark and field are written as on a new
object. -/
theorem cli_table_end_restores_witness :
    (∀ x ∈ [Call.table_header 4 ui_left none (some ['N'])], x.is_table_content = true)
    ∧ (0 : Int) < 2
    ∧ run_calls world0 0
        ((Call.table_begin 1 0 none :: [Call.table_header 4 ui_left none (some ['N'])]
            ++ [Call.table_end])
          ++ Call.table_begin 1 2 none ::
            [Call.table_header 2 ui_left none (some ['N']), Call.table_body,
              Call.field_int 1 2 ui_right none 7]) =
        run_calls (cli_out_new world0 0 (world0.data 0).stream) 0
          (Call.table_begin 1 2 none ::
            [Call.table_header 2 ui_left none (some ['N']), Call.table_body,
              Call.field_int 1 2 ui_right none 7])
    ∧ sink_content (run_calls world0 0
        ((Call.table_begin 1 0 none :: [Call.table_header 4 ui_left none (some ['N'])]
            ++ [Call.table_end])
          ++ Call.table_begin 1 2 none ::
            [Call.table_header 2 ui_left none (some ['N']), Call.table_body,
              Call.field_int 1 2 ui_right none 7])).world 0 =
        ['N', ' ', ' ', '\n', ' ', '7', ' '] :=
  ⟨by decide, by decide,
    ((((cli_table_end_restores world0 0).2.2.2 1 none
      [Call.table_header 4 ui_left none (some ['N'])] (by decide)).2 1 2 none
      [Call.table_header 2 ui_left none (some ['N']), Call.table_body,
        Call.field_int 1 2 ui_right none 7] (by decide)).2),
    by decide⟩

theorem cli_table_header_eq (w : World) (c : Nat) (h : header_spec)
    (hsup : (w.data c).suppress_output = 0) :
    cli_table_header w c h.width h.alignment h.col_name h.colhdr =
      w.log (field_events (w.data c).stream (w.data w.uiout).stream h.width h.alignment
        h.colhdr) := by
  simp only [cli_table_header, ui_out_data_of, hsup, ne_eq, not_true_eq_false, if_false]
  rw [cli_field_string_eq w c 0 h.width h.alignment none h.colhdr hsup]
  rfl

theorem rendered_header_eq (w : World) (c : Nat) (h : header_spec)
    (hsup : (w.data c).suppress_output = 0) :
    rendered_header w c h =
      field_events (w.data c).stream (w.data w.uiout).stream h.width h.alignment h.colhdr := by
  rw [rendered_header, cli_table_header_eq w c h hsup, emitted_log]

theorem rendered_header_log (w : World) (c : Nat) (h : header_spec) (a : List ui_event)
    (hsup : (w.data c).suppress_output = 0) :
    rendered_header (w.log a) c h = rendered_header w c h := by
  rw [rendered_header_eq w c h hsup, rendered_header_eq (w.log a) c h hsup]
  rfl

theorem run_headers (w : World) (c : Nat) (hs : List header_spec)
    (hsup : (w.data c).suppress_output = 0) :
    run_calls w c (hs.map header_spec.call) =
      Outcome.returned (w.log ((hs.map (rendered_header w c)).flatten)) := by
  induction hs generalizing w with
  | nil => simp [run_calls, log_nil]
  | cons h t ih =>
    simp only [List.map_cons, run_calls, run_call, header_spec.call, List.flatten_cons]
    rw [cli_table_header_eq w c h hsup, ih (w.log _) hsup, log_log,
      ← rendered_header_eq w c h hsup]
    congr 4
    apply List.map_congr_left
    intro x _
    exact rendered_header_log w c x _ hsup

/-- Every call only appends to the log. -/
theorem run_call_events (w : World) (c : Nat) (x : Call) :
    ∃ es, (run_call w c x).world.events = w.events ++ es := by
  have hfs : ∀ (v : World) (f wd : Int) (a : ui_align) (n s : Option (List Char)),
      ∃ es, (cli_field_string v c f wd a n s).events = v.events ++ es := by
    intro v f wd a n s
    by_cases hv : (v.data c).suppress_output = 0
    · rw [cli_field_string_eq v c f wd a n s hv]
      exact ⟨_, rfl⟩
    · exact ⟨[], by simp [cli_field_string, ui_out_data_of, hv]⟩
  cases x with
  | table_begin n r t =>
    refine ⟨[], ?_⟩
    simp only [run_call, cli_table_begin]
    split_ifs <;> simp [Outcome.world, set_suppress_output]
  | table_body =>
    simp only [run_call, Outcome.world, cli_table_body, cli_text, fputs_filtered]
    split_ifs
    · exact ⟨[], by simp⟩
    · exact ⟨_, rfl⟩
  | table_end => exact ⟨[], by simp [run_call, Outcome.world, cli_table_end, set_suppress_output]⟩
  | table_header wd a cn ch =>
    simp only [run_call, Outcome.world, cli_table_header]
    split_ifs
    · exact ⟨[], by simp⟩
    · exact hfs _ _ _ _ _ _
  | list_begin t l i => exact ⟨[], by simp [run_call, Outcome.world, cli_begin]⟩
  | list_end t l => exact ⟨[], by simp [run_call, Outcome.world, cli_end]⟩
  | field_int f wd a n v =>
    simp only [run_call, Outcome.world, cli_field_int]
    split_ifs
    · exact ⟨[], by simp⟩
    · exact hfs _ _ _ _ _ _
  | field_skip f wd a n =>
    simp only [run_call, Outcome.world, cli_field_skip]
    split_ifs
    · exact ⟨[], by simp⟩
    · exact hfs _ _ _ _ _ _
  | field_string f wd a n s => exact hfs _ _ _ _ _ _
  | field_fmt f wd a n s =>
    simp only [run_call, Outcome.world, cli_field_fmt, vfprintf_filtered, field_separator,
      fputc_filtered]
    split_ifs
    · exact ⟨[], by simp⟩
    · exact ⟨_, by rw [log_log]; rfl⟩
    · exact ⟨_, rfl⟩
  | spaces n =>
    simp only [run_call, Outcome.world, cli_spaces, print_spaces_filtered]
    split_ifs
    · exact ⟨[], by simp⟩
    · exact ⟨_, rfl⟩
  | text s =>
    simp only [run_call, Outcome.world, cli_text, fputs_filtered]
    split_ifs
    · exact ⟨[], by simp⟩
    · exact ⟨_, rfl⟩
  | text_fmt s =>
    simp only [run_call, Outcome.world, cli_text_fmt, vfprintf_filtered]
    split_ifs
    · exact ⟨[], by simp⟩
    · exact ⟨_, rfl⟩
  | message v s =>
    simp only [run_call, Outcome.world, cli_message, vfprintf_unfiltered]
    split_ifs
    · exact ⟨[], by simp⟩
    · exact ⟨_, rfl⟩
    · exact ⟨[], by simp⟩
  | wrap_hint i =>
    simp only [run_call, Outcome.world, cli_wrap_hint, wrap_here]
    split_ifs
    · exact ⟨[], by simp⟩
    · exact ⟨_, rfl⟩
  | flush => exact ⟨_, rfl⟩

theorem run_calls_events (w : World) (c : Nat) (cs : List Call) :
    ∃ es, (run_calls w c cs).world.events = w.events ++ es := by
  induction cs generalizing w with
  | nil => exact ⟨[], by simp [run_calls, Outcome.world]⟩
  | cons x xs ih =>
    obtain ⟨e1, h1⟩ := run_call_events w c x
    simp only [run_calls]
    cases hx : run_call w c x with
    | returned w2 =>
      rw [hx] at h1
      obtain ⟨e2, h2⟩ := ih w2
      refine ⟨e1 ++ e2, ?_⟩
      simp only [Outcome.world] at h1
      simp only [h2, h1, List.append_assoc]
    | internal_error w2 =>
      rw [hx] at h1
      exact ⟨e1, h1⟩

/-- C6: on a ui_out object that is not suppressed, for nr_rows > 0 and any list
of column headers: cli_table_begin returns without writing anything; the
header calls that follow append the rendered header fields, one after the
other; cli_table_body then appends exactly the one character newline; so the
whole sequence appends the concatenated header fields followed by one line
break, and whatever calls come afterwards write after that line break. -/
theorem table_header_line (w : World) (c : Nat) (nbrofcols nr_rows : Int)
    (tblid : Option (List Char)) (hs : List header_spec)
    (hsup : (w.data c).suppress_output = 0) (hrows : 0 < nr_rows) :
    cli_table_begin w c nbrofcols nr_rows tblid = Outcome.returned w
    ∧ run_calls w c (hs.map header_spec.call) =
        Outcome.returned (w.log ((hs.map (rendered_header w c)).flatten))
    ∧ cli_table_body (w.log ((hs.map (rendered_header w c)).flatten)) c =
        (w.log ((hs.map (rendered_header w c)).flatten)).log
          [ui_event.putc (w.data c).stream '\n']
    ∧ run_calls w c
        (Call.table_begin nbrofcols nr_rows tblid :: hs.map header_spec.call
          ++ [Call.table_body]) =
        Outcome.returned
          (w.log ((hs.map (rendered_header w c)).flatten ++ [ui_event.putc (w.data c).stream '\n']))
    ∧ ∀ cs : List Call, ∃ es : List ui_event,
        (run_calls w c
          ((Call.table_begin nbrofcols nr_rows tblid :: hs.map header_spec.call
            ++ [Call.table_body]) ++ cs)).world.events =
          w.events ++ (hs.map (rendered_header w c)).flatten
            ++ [ui_event.putc (w.data c).stream '\n'] ++ es := by
  have hr0 : nr_rows ≠ 0 := by omega
  have hb : cli_table_begin w c nbrofcols nr_rows tblid = Outcome.returned w := by
    simp [cli_table_begin, hr0, ui_out_data_of, hsup]
  have hh := run_headers w c hs hsup
  have hbody : cli_table_body (w.log ((hs.map (rendered_header w c)).flatten)) c =
      (w.log ((hs.map (rendered_header w c)).flatten)).log
        [ui_event.putc (w.data c).stream '\n'] := by
    simp [cli_table_body, cli_text, fputs_filtered, ui_out_data_of, log_data, hsup, put_string]
  have hseq : run_calls w c
      (Call.table_begin nbrofcols nr_rows tblid :: hs.map header_spec.call
        ++ [Call.table_body]) =
      Outcome.returned
        (w.log ((hs.map (rendered_header w c)).flatten ++ [ui_event.putc (w.data c).stream '\n'])) := by
    rw [List.cons_append]
    simp only [run_calls, run_call, hb]
    rw [run_calls_append, hh]
    simp only [run_calls, run_call, hbody, log_log]
  refine ⟨hb, hh, hbody, hseq, ?_⟩
  intro cs
  rw [run_calls_append, hseq]
  obtain ⟨es, he⟩ := run_calls_events
    (w.log ((hs.map (rendered_header w c)).flatten ++ [ui_event.putc (w.data c).stream '\n'])) c cs
  refine ⟨es, ?_⟩
  simp only [he, log_events, List.append_assoc]

/-- Witness for C6: a table with three rows and the two column headers Num
(width 3, left) and Ty (width 4, right) on the ui_out object 0. -/
theorem table_header_line_witness :
    (world0.data 0).suppress_output = 0 ∧ (0 : Int) < 3
    ∧ sink_content (run_calls world0 0
        (Call.table_begin 2 3 none ::
          [header_spec.mk 3 ui_left (some ['n']) (some ['N', 'u', 'm']),
            header_spec.mk 4 ui_right (some ['t']) (some ['T', 'y'])].map header_spec.call
          ++ [Call.table_body])).world 0 =
        ['N', 'u', 'm', ' ', ' ', ' ', 'T', 'y', ' ', '\n'] :=
  ⟨by decide, by decide, by
    rw [(table_header_line world0 0 2 3 none
      [header_spec.mk 3 ui_left (some ['n']) (some ['N', 'u', 'm']),
        header_spec.mk 4 ui_right (some ['t']) (some ['T', 'y'])] (by decide) (by decide)).2.2.2.1]
    decide⟩

/-! ## Messages -/

/-- Counterexample to C7: on the ui_out object 0, suppressed by a table begin
with zero rows, with the verbosity threshold 0 >= the verbosity 0 of the
message, cli_message writes nothing. -/
theorem cli_message_suppressed_writes_nothing :
    (((cli_table_begin world0 0 1 0 none).world).data 0).suppress_output = 1
    ∧ ui_out_get_verblvl (cli_table_begin world0 0 1 0 none).world 0 ≥ 0
    ∧ emitted (cli_table_begin world0 0 1 0 none).world
        (cli_message (cli_table_begin world0 0 1 0 none).world 0 0 ['h', 'i']) = []
    ∧ sink_content (cli_message (cli_table_begin world0 0 1 0 none).world 0 0 ['h', 'i']) 0 = []
    ∧ sink_content (cli_message world0 0 0 ['h', 'i']) 0 = ['h', 'i'] := by
  decide

/-- C7 as amended: cli_message writes the formatted text to the stream of the
ui_out object if and only if the object is not suppressed and its verbosity
threshold is >= the verbosity of the message; otherwise it changes nothing. -/
theorem cli_message_gate (w : World) (c : Nat) (verbosity : Int) (formatted : List Char) :
    cli_message w c verbosity formatted =
      if (w.data c).suppress_output = 0 ∧ ui_out_get_verblvl w c ≥ verbosity then
        w.log (put_string (w.data c).stream formatted)
      else w := by
  by_cases hs : (w.data c).suppress_output = 0
  · by_cases hv : ui_out_get_verblvl w c ≥ verbosity
    · simp [cli_message, ui_out_data_of, vfprintf_unfiltered, hs, hv]
    · simp [cli_message, ui_out_data_of, vfprintf_unfiltered, hs, hv]
  · simp [cli_message, ui_out_data_of, hs]

/-! ## The field functions that end up in cli_field_string -/

/-- C8: for every state, suppressed or not, and all arguments, cli_field_int
ends in the same state with the same log as cli_field_string called with the
same arguments and the base 10 representation of the value as string.  On the
ui_out object 0 with an empty sink, index 0, width 5, ui_right, name n and value
42 give three spaces, 42 and the separator. -/
theorem cli_field_int_eq_field_string :
    (∀ (w : World) (c : Nat) (fldno width : Int) (alignment : ui_align)
        (fldname : Option (List Char)) (value : Int),
      cli_field_int w c fldno width alignment fldname value =
        cli_field_string w c fldno width alignment fldname (some (sprintf_d value)))
    ∧ (∀ value : Int, sprintf_d value = (toString value).toList)
    ∧ sink_content (cli_field_int world0 0 0 5 ui_right (some ['n']) 42) 0 =
        [' ', ' ', ' ', '4', '2', ' '] := by
  refine ⟨?_, ?_, by decide⟩
  · intro w c fldno width alignment fldname value
    by_cases hs : (w.data c).suppress_output = 0
    · simp [cli_field_int, ui_out_data_of, hs]
    · simp [cli_field_int, cli_field_string, ui_out_data_of, hs]
  · intro value
    cases value <;> rfl

theorem put_spaces_add (stream a b : Nat) :
    put_spaces stream a ++ put_spaces stream b = put_spaces stream (a + b) := by
  simp only [put_spaces]
  exact (List.replicate_add a b _).symm

/-- C9: for every state and all arguments cli_field_skip ends in the same state
with the same log as cli_field_string with the empty string; on a ui_out object
that is not suppressed it writes, for an alignment other than ui_noalign and a
width w > 0 of type int, exactly w spaces and then the one separator, and for
ui_noalign nothing. -/
theorem cli_field_skip_eq_field_string (w : World) (c : Nat) (fldno width : Int)
    (alignment : ui_align) (fldname : Option (List Char)) :
    cli_field_skip w c fldno width alignment fldname =
        cli_field_string w c fldno width alignment fldname (some [])
    ∧ ((w.data c).suppress_output = 0 → alignment ≠ ui_noalign → 0 < width →
        width ≤ INT_MAX →
        cli_field_skip w c fldno width alignment fldname =
          w.log (put_spaces (w.data c).stream width.toNat
            ++ [ui_event.putc (w.data w.uiout).stream ' ']))
    ∧ ((w.data c).suppress_output = 0 →
        cli_field_skip w c fldno width ui_noalign fldname = w) := by
  have heq : ∀ a : ui_align, cli_field_skip w c fldno width a fldname =
      cli_field_string w c fldno width a fldname (some []) := by
    intro a
    by_cases hs : (w.data c).suppress_output = 0
    · simp [cli_field_skip, ui_out_data_of, hs]
    · simp [cli_field_skip, cli_field_string, ui_out_data_of, hs]
  refine ⟨heq alignment, ?_, ?_⟩
  · intro hs ha hpos hmax
    have hlen : ((([] : List Char).length : Nat) : Int) ≤ width := by
      simp only [List.length_nil, Nat.cast_zero]; omega
    have e1 : (width - width / 2).toNat + (width / 2).toNat = width.toNat := by omega
    rw [heq alignment, cli_field_string_eq w c fldno width alignment fldname (some []) hs,
      field_padding_fits width alignment [] hlen hmax]
    cases alignment with
    | ui_noalign => exact absurd rfl ha
    | ui_right => simp [put_string, put_spaces]
    | ui_left => simp [put_string, put_spaces]
    | ui_center =>
      simp only [put_string, List.map_nil, List.append_nil, put_spaces_add, List.length_nil,
        Nat.cast_zero, sub_zero, e1]
      simp
  · intro hs
    rw [heq ui_noalign, cli_field_string_eq w c fldno width ui_noalign fldname (some []) hs]
    simp [field_padding, put_string, put_spaces, log_nil]

/-- Witness for C9: a skipped field of width 3, centred, on the ui_out object 0
is three spaces and the separator. -/
theorem cli_field_skip_eq_field_string_witness :
    (world0.data 0).suppress_output = 0 ∧ ui_center ≠ ui_noalign ∧ (0 : Int) < 3
    ∧ (3 : Int) ≤ INT_MAX
    ∧ sink_content (cli_field_skip world0 0 0 3 ui_center none) 0 = [' ', ' ', ' ', ' ']
    ∧ cli_field_skip world0 0 0 3 ui_noalign none = world0 :=
  ⟨by decide, by decide, by decide, by decide, by
    rw [(cli_field_skip_eq_field_string world0 0 0 3 ui_center none).2.1
      (by decide) (by decide) (by decide) (by decide)]
    decide,
    (cli_field_skip_eq_field_string world0 0 0 3 ui_center none).2.2 (by decide)⟩

/-- C10: cli_table_begin with nr_rows other than 0 fails its assertion if and
only if the ui_out object is suppressed on entry, and whether it fails or
returns, the state it leaves (the suppress_output flag of every object and the
log, hence every sink) is the state on entry. -/
theorem cli_table_begin_assertion (w : World) (c : Nat) (nbrofcols nr_rows : Int)
    (tblid : Option (List Char)) (hrows : nr_rows ≠ 0) :
    ((cli_table_begin w c nbrofcols nr_rows tblid).failed = true ↔
        (w.data c).suppress_output ≠ 0)
    ∧ (cli_table_begin w c nbrofcols nr_rows tblid).world = w := by
  by_cases hs : (w.data c).suppress_output = 0
  · simp [cli_table_begin, hrows, ui_out_data_of, hs, Outcome.failed, Outcome.world]
  · simp [cli_table_begin, hrows, ui_out_data_of, hs, Outcome.failed, Outcome.world]

/-- Witness for C10: a table begin with two rows fails on the ui_out object 0
once a table with zero rows has suppressed it. -/
theorem cli_table_begin_assertion_witness :
    (2 : Int) ≠ 0
    ∧ ((cli_table_begin (cli_table_begin world0 0 1 0 none).world 0 1 2 none).failed = true ↔
        (((cli_table_begin world0 0 1 0 none).world).data 0).suppress_output ≠ 0)
    ∧ (cli_table_begin (cli_table_begin world0 0 1 0 none).world 0 1 2 none).world =
        (cli_table_begin world0 0 1 0 none).world
    ∧ (cli_table_begin (cli_table_begin world0 0 1 0 none).world 0 1 2 none).failed = true
    ∧ (cli_table_begin world0 0 1 2 none).failed = false :=
  ⟨by decide,
    (cli_table_begin_assertion (cli_table_begin world0 0 1 0 none).world 0 1 2 none
      (by decide)).1,
    (cli_table_begin_assertion (cli_table_begin world0 0 1 0 none).world 0 1 2 none
      (by decide)).2,
    by decide, by decide⟩

/-! ## Table begin on a suppressed object, table headers, independence -/

/-- Counterexample to C11: on the ui_out object 0, already suppressed by a table
begin with zero rows, a second cli_table_begin with zero rows returns instead of
failing its assertion, and the object stays suppressed. -/
theorem cli_table_begin_zero_rows_accepted_when_suppressed :
    (((cli_table_begin world0 0 1 0 none).world).data 0).suppress_output ≠ 0
    ∧ (cli_table_begin (cli_table_begin world0 0 1 0 none).world 0 1 0 none).failed = false
    ∧ (((cli_table_begin (cli_table_begin world0 0 1 0 none).world 0 1 0
        none).world).data 0).suppress_output = 1 := by
  decide

/-- C11 as amended: a cli_table_begin issued while the ui_out object is already
suppressed fails its assertion if and only if nr_rows is not 0; with
nr_rows = 0 it returns, having set suppress_output to 1. -/
theorem cli_table_begin_when_suppressed (w : World) (c : Nat) (nbrofcols nr_rows : Int)
    (tblid : Option (List Char)) (hsup : (w.data c).suppress_output ≠ 0) :
    ((cli_table_begin w c nbrofcols nr_rows tblid).failed = true ↔ nr_rows ≠ 0)
    ∧ (nr_rows ≠ 0 → cli_table_begin w c nbrofcols nr_rows tblid = Outcome.internal_error w)
    ∧ (nr_rows = 0 →
        cli_table_begin w c nbrofcols nr_rows tblid =
          Outcome.returned (set_suppress_output w c 1)) := by
  by_cases hr : nr_rows = 0
  · simp [cli_table_begin, hr, Outcome.failed]
  · simp [cli_table_begin, hr, hsup, ui_out_data_of, Outcome.failed]

/-- Witness for C11 as amended: on the suppressed ui_out object 0 a table begin
with two rows fails. -/
theorem cli_table_begin_when_suppressed_witness :
    (((cli_table_begin world0 0 1 0 none).world).data 0).suppress_output ≠ 0
    ∧ (2 : Int) ≠ 0
    ∧ cli_table_begin (cli_table_begin world0 0 1 0 none).world 0 1 2 none =
        Outcome.internal_error (cli_table_begin world0 0 1 0 none).world :=
  ⟨by decide, by decide,
    (cli_table_begin_when_suppressed (cli_table_begin world0 0 1 0 none).world 0 1 2 none
      (by decide)).2.1 (by decide)⟩

/-- C12: for every state and all arguments, cli_table_header ends in the state
and with the log of cli_field_string called with field index 0, no field name
and the column header as string; when the ui_out object is suppressed that is
the unchanged state; and the column name has no influence on the result. -/
theorem cli_table_header_eq_field_string (w : World) (c : Nat) (width : Int)
    (alignment : ui_align) (col_name colhdr : Option (List Char)) :
    cli_table_header w c width alignment col_name colhdr =
        cli_field_string w c 0 width alignment none colhdr
    ∧ ((w.data c).suppress_output ≠ 0 →
        cli_table_header w c width alignment col_name colhdr = w)
    ∧ ∀ col_name2 : Option (List Char),
        cli_table_header w c width alignment col_name2 colhdr =
          cli_table_header w c width alignment col_name colhdr := by
  refine ⟨?_, ?_, ?_⟩
  · by_cases hs : (w.data c).suppress_output = 0
    · simp [cli_table_header, ui_out_data_of, hs]
    · simp [cli_table_header, cli_field_string, ui_out_data_of, hs]
  · intro hs
    simp [cli_table_header, ui_out_data_of, hs]
  · intro col_name2
    rfl

/-- Witness for C12: a header on the suppressed ui_out object 0 changes
nothing, and on the object that is not suppressed the header Num of width 4,
aligned left, is written like the field. -/
theorem cli_table_header_eq_field_string_witness :
    (((cli_table_begin world0 0 1 0 none).world).data 0).suppress_output ≠ 0
    ∧ cli_table_header (cli_table_begin world0 0 1 0 none).world 0 4 ui_left
        (some ['n']) (some ['N', 'u', 'm']) = (cli_table_begin world0 0 1 0 none).world
    ∧ sink_content (cli_table_header world0 0 4 ui_left (some ['n']) (some ['N', 'u', 'm'])) 0
        = ['N', 'u', 'm', ' ', ' '] :=
  ⟨by decide,
    (cli_table_header_eq_field_string (cli_table_begin world0 0 1 0 none).world 0 4 ui_left
      (some ['n']) (some ['N', 'u', 'm'])).2.1 (by decide),
    by decide⟩

/-- The failing input of C13: in the state world0 the ui_out object 1 (A) writes
to stream 1 while the global uiout is the object 0 (B), which writes to stream
0.  A field Left of width 4 with the string ab rendered on A puts ab and the
two padding spaces on the sink of A, but the separator on the sink of B. -/
theorem field_separator_writes_to_global_uiout :
    (world0.data 1).stream ≠ (world0.data 0).stream
    ∧ world0.uiout = 0
    ∧ (world0.data 1).suppress_output = 0
    ∧ sink_content (cli_field_string world0 1 0 4 ui_left none (some ['a', 'b'])) 1
        = ['a', 'b', ' ', ' ']
    ∧ sink_content world0 0 = []
    ∧ sink_content (cli_field_string world0 1 0 4 ui_left none (some ['a', 'b'])) 0 = [' ']
    ∧ ((cli_field_string world0 1 0 4 ui_left none (some ['a', 'b'])).data 0).suppress_output
        = (world0.data 0).suppress_output := by
  decide

theorem sink_content_eq (w : World) (k : Nat) : sink_content w k = stream_chars w.events k := rfl

theorem stream_chars_append (a b : List ui_event) (k : Nat) :
    stream_chars (a ++ b) k = stream_chars a k ++ stream_chars b k := by
  simp [stream_chars, List.filterMap_append]

theorem sink_content_log (w : World) (es : List ui_event) (k : Nat) :
    sink_content (w.log es) k = sink_content w k ++ stream_chars es k := by
  simp [sink_content_eq, log_events, stream_chars_append]

theorem stream_chars_put_string (st k : Nat) (s : List Char) :
    stream_chars (put_string st s) k = if st = k then s else [] := by
  induction s with
  | nil => simp [stream_chars, put_string]
  | cons x xs ih =>
    have h : put_string st (x :: xs) = [ui_event.putc st x] ++ put_string st xs := rfl
    rw [h, stream_chars_append, ih]
    by_cases hk : st = k <;> simp [stream_chars, hk]

theorem stream_chars_put_spaces (st k n : Nat) :
    stream_chars (put_spaces st n) k = if st = k then List.replicate n ' ' else [] := by
  induction n with
  | zero => simp [stream_chars, put_spaces]
  | succ m ih =>
    have h : put_spaces st (m + 1) = [ui_event.putc st ' '] ++ put_spaces st m := by
      simp [put_spaces, List.replicate_succ]
    rw [h, stream_chars_append, ih]
    by_cases hk : st = k <;> simp [stream_chars, hk, List.replicate_succ]

theorem stream_chars_putc (st k : Nat) (c : Char) :
    stream_chars [ui_event.putc st c] k = if st = k then [c] else [] := by
  by_cases hk : st = k <;> simp [stream_chars, hk]

/-- Where the characters of an aligned field go: the padding and the string go
to the stream of the ui_out object the field is rendered on, the separator
goes to the stream of the global uiout, no other stream receives anything and
no ui_out_data changes.  So the whole field lands on one sink exactly when the
two streams are the same, as they are when the object is the global uiout. -/
theorem cli_field_string_sinks (w : World) (c : Nat) (fldno width : Int) (align : ui_align)
    (fldname : Option (List Char)) (s : List Char)
    (hsup : (w.data c).suppress_output = 0) (ha : align ≠ ui_noalign) :
    (cli_field_string w c fldno width align fldname (some s)).data = w.data
    ∧ (∀ k : Nat, k ≠ (w.data c).stream → k ≠ (w.data w.uiout).stream →
        sink_content (cli_field_string w c fldno width align fldname (some s)) k =
          sink_content w k)
    ∧ ((w.data w.uiout).stream = (w.data c).stream →
        sink_content (cli_field_string w c fldno width align fldname (some s))
            (w.data c).stream =
          sink_content w (w.data c).stream
            ++ List.replicate (field_padding width align (some s)).1.toNat ' ' ++ s
            ++ List.replicate (field_padding width align (some s)).2.toNat ' ' ++ [' '])
    ∧ ((w.data w.uiout).stream ≠ (w.data c).stream →
        sink_content (cli_field_string w c fldno width align fldname (some s))
            (w.data c).stream =
          sink_content w (w.data c).stream
            ++ List.replicate (field_padding width align (some s)).1.toNat ' ' ++ s
            ++ List.replicate (field_padding width align (some s)).2.toNat ' '
        ∧ sink_content (cli_field_string w c fldno width align fldname (some s))
            (w.data w.uiout).stream =
          sink_content w (w.data w.uiout).stream ++ [' ']) := by
  rw [cli_field_string_eq w c fldno width align fldname (some s) hsup]
  simp only [ha, ne_eq, not_false_eq_true, if_true]
  refine ⟨rfl, ?_, ?_, ?_⟩
  · intro k h1 h2
    have h1' : ¬ (w.data c).stream = k := fun h => h1 h.symm
    have h2' : ¬ (w.data w.uiout).stream = k := fun h => h2 h.symm
    simp [sink_content_log, stream_chars_append, stream_chars_put_string,
      stream_chars_put_spaces, stream_chars_putc, h1', h2']
  · intro hg
    simp [sink_content_log, stream_chars_append, stream_chars_put_string,
      stream_chars_put_spaces, stream_chars_putc, hg]
  · intro hg
    have hg' : ¬ (w.data c).stream = (w.data w.uiout).stream := fun h => hg h.symm
    constructor
    · simp [sink_content_log, stream_chars_append, stream_chars_put_string,
        stream_chars_put_spaces, stream_chars_putc, hg]
    · simp [sink_content_log, stream_chars_append, stream_chars_put_string,
        stream_chars_put_spaces, stream_chars_putc, hg']

/-! ## The conversion buffer of cli_field_int -/

theorem toDigits_length_le (n e : Nat) (he : 0 < e) (hn : n < 10 ^ e) :
    (Nat.toDigits 10 n).length ≤ e := by
  exact Nat.repr_length n e he hn

/-- C14: for every value of the 32 bit type int, the text sprintf writes for
%d has at most 11 characters, so with the terminating NUL it occupies at most
12 bytes, which fit the buffer of 20 bytes in cli_field_int; the worst case
INT_MIN is the 11 characters -2147483648. -/
theorem sprintf_d_fits_buffer (value : Int) (hlo : INT_MIN ≤ value) (hhi : value ≤ INT_MAX) :
    (sprintf_d value).length ≤ 11
    ∧ sprintf_d_bytes value ≤ cli_field_int_buffer_size
    ∧ sprintf_d INT_MIN = ['-', '2', '1', '4', '7', '4', '8', '3', '6', '4', '8']
    ∧ sprintf_d_bytes INT_MIN = 12 := by
  have hlen : (sprintf_d value).length ≤ 11 := by
    unfold INT_MIN at hlo
    unfold INT_MAX at hhi
    cases value with
    | ofNat n =>
      have hn : n < 10 ^ 10 := by
        have : (n : Int) ≤ 2147483647 := hhi
        norm_num
        omega
      have := toDigits_length_le n 10 (by norm_num) hn
      simp only [sprintf_d]
      omega
    | negSucc n =>
      have hn : n + 1 < 10 ^ 10 := by
        have h1 : Int.negSucc n ≥ -2147483648 := hlo
        have h2 : Int.negSucc n = -((n : Int) + 1) := Int.negSucc_eq n
        norm_num
        omega
      have := toDigits_length_le (n + 1) 10 (by norm_num) hn
      simp only [sprintf_d, List.length_cons]
      omega
  refine ⟨hlen, ?_, by decide, by decide⟩
  simp only [sprintf_d_bytes, cli_field_int_buffer_size]
  omega

/-- Witness for C14: the value -42 is written as three characters and occupies
four bytes. -/
theorem sprintf_d_fits_buffer_witness :
    INT_MIN ≤ -42 ∧ (-42 : Int) ≤ INT_MAX
    ∧ (sprintf_d (-42)).length ≤ 11
    ∧ sprintf_d_bytes (-42) ≤ cli_field_int_buffer_size
    ∧ sprintf_d (-42) = ['-', '4', '2'] :=
  ⟨by decide, by decide,
    (sprintf_d_fits_buffer (-42) (by decide) (by decide)).1,
    (sprintf_d_fits_buffer (-42) (by decide) (by decide)).2.1,
    by decide⟩

/-! ## Flush -/

/-- C15: for every state, whether the ui_out object is suppressed or not,
cli_flush logs exactly one flush of the stream of the object and nothing else:
the stream has one more flush request, no sink gets a character, and no
suppress_output flag changes. -/
theorem cli_flush_unconditional (w : World) (c : Nat) :
    cli_flush w c = w.log [ui_event.flush (w.data c).stream]
    ∧ flush_count (cli_flush w c) (w.data c).stream = flush_count w (w.data c).stream + 1
    ∧ (∀ k : Nat, sink_content (cli_flush w c) k = sink_content w k)
    ∧ (cli_flush w c).data = w.data := by
  refine ⟨rfl, ?_, ?_, rfl⟩
  · simp [cli_flush, gdb_flush, ui_out_data_of, flush_count, World.log, List.filter_append]
  · intro k
    simp [cli_flush, gdb_flush, ui_out_data_of, sink_content, World.log, List.filterMap_append]

/-! ## The width of a column -/

theorem put_spaces_length (st n : Nat) : (put_spaces st n).length = n := by
  simp [put_spaces]

theorem put_string_length (st : Nat) (s : List Char) : (put_string st s).length = s.length := by
  simp [put_string]

/-- The number of events an aligned field with a string adds to the log. -/
theorem emitted_field_string_length (w : World) (c : Nat) (fldno width : Int)
    (align : ui_align) (fldname : Option (List Char)) (s : List Char)
    (hsup : (w.data c).suppress_output = 0) (ha : align ≠ ui_noalign) :
    (emitted w (cli_field_string w c fldno width align fldname (some s))).length =
      (field_padding width align (some s)).1.toNat + s.length
        + (field_padding width align (some s)).2.toNat + 1 := by
  rw [cli_field_string_eq w c fldno width align fldname (some s) hsup, emitted_log]
  simp only [ha, ne_eq, not_false_eq_true, if_true, List.length_append, put_spaces_length,
    put_string_length, List.length_singleton]

/-- The number of characters an aligned field with a string adds to the sink
of its ui_out object, when the global uiout writes to that sink too. -/
theorem sink_field_string_length (w : World) (c : Nat) (fldno width : Int)
    (align : ui_align) (fldname : Option (List Char)) (s : List Char)
    (hsup : (w.data c).suppress_output = 0) (ha : align ≠ ui_noalign)
    (hg : (w.data w.uiout).stream = (w.data c).stream) :
    (sink_content (cli_field_string w c fldno width align fldname (some s))
        (w.data c).stream).length =
      (sink_content w (w.data c).stream).length
        + (field_padding width align (some s)).1.toNat + s.length
        + (field_padding width align (some s)).2.toNat + 1 := by
  rw [(cli_field_string_sinks w c fldno width align fldname s hsup ha).2.2.1 hg]
  simp only [List.length_append, List.length_replicate, List.length_singleton]

/-- The failing inputs of C16.  The one of C2: with the width INT_MIN and the
string a, max(w, length(s)) + 1 is 2, but the difference INT_MIN - 1 wraps to
INT_MAX in the int before and cli_field_string adds 2147483649 characters,
2147483647 spaces, the a and the separator, all on stream 0.  The one of C13:
with width 4 and the string ab on the ui_out object 1, which is not the global
uiout, max(w, length(s)) + 1 is 5 but the sink of the object grows by 4
characters, because the separator goes to the stream of the global uiout. -/
theorem cli_field_string_width_when_difference_wraps :
    max INT_MIN ((['a'].length : Nat) : Int) + 1 = 2
    ∧ (emitted world0
        (cli_field_string world0 0 0 INT_MIN ui_right none (some ['a']))).length = 2147483649
    ∧ (sink_content (cli_field_string world0 0 0 INT_MIN ui_right none (some ['a'])) 0).length
        = 2147483649
    ∧ max (4 : Int) ((['a', 'b'].length : Nat) : Int) + 1 = 5
    ∧ (sink_content (cli_field_string world0 1 0 4 ui_left none (some ['a', 'b'])) 1).length
        = 4 := by
  have hp : field_padding INT_MIN ui_right (some ['a']) = (2147483647, 0) := by decide
  have h3 : ((2147483647, 0) : Int × Int).1.toNat = 2147483647 := rfl
  have h4 : ((2147483647, 0) : Int × Int).2.toNat = 0 := rfl
  refine ⟨by decide, ?_, ?_, by decide, by decide⟩
  · rw [emitted_field_string_length world0 0 0 INT_MIN ui_right none ['a'] rfl (by decide),
      hp, h3, h4]
    simp only [List.length_cons, List.length_nil]
  · have hs := sink_field_string_length world0 0 0 INT_MIN ui_right none ['a'] rfl
      (by decide) rfl
    have h0 : (sink_content world0 (world0.data 0).stream).length = 0 := rfl
    rw [hp, h3, h4, h0] at hs
    exact hs

/-- The paddings before and after add up to the difference width - length(s)
where that difference fits the type int, and to nothing where it is negative. -/
theorem field_padding_sum (width : Int) (align : ui_align) (s : List Char)
    (ha : align ≠ ui_noalign)
    (hmin : INT_MIN ≤ width - (s.length : Int)) (hmax : width ≤ INT_MAX) :
    (field_padding width align (some s)).1.toNat + (field_padding width align (some s)).2.toNat
      = (width - (s.length : Int)).toNat := by
  have hw : wrap_int (width - (s.length : Int)) = width - s.length := by
    apply wrap_int_of_range _ hmin
    unfold INT_MAX at *; omega
  simp only [field_padding, hw]
  by_cases h0 : width - (s.length : Int) ≤ 0
  · simp [ha, h0]
    omega
  · have hdiv : c_div (width - (s.length : Int)) 2 = (width - s.length) / 2 := by
      unfold c_div
      exact Int.tdiv_eq_ediv (by omega) (by omega)
    cases align with
    | ui_noalign => exact absurd rfl ha
    | ui_right => simp [h0]
    | ui_left => simp [h0]
    | ui_center =>
      simp only [ne_eq, not_false_eq_true, if_true, h0, if_false, hdiv, reduceCtorEq]
      omega

/-- Where the difference width - length(s) fits the type int, an aligned field
adds exactly max(width, length(s)) + 1 characters to the log: padding and
string fill the column and one separator follows. -/
theorem cli_field_string_width_in_range (w : World) (c : Nat) (fldno width : Int)
    (align : ui_align) (fldname : Option (List Char)) (s : List Char)
    (hsup : (w.data c).suppress_output = 0) (ha : align ≠ ui_noalign)
    (hmin : INT_MIN ≤ width - (s.length : Int)) (hmax : width ≤ INT_MAX) :
    ((emitted w (cli_field_string w c fldno width align fldname (some s))).length : Int) =
      max width (s.length : Int) + 1 := by
  rw [emitted_field_string_length w c fldno width align fldname s hsup ha]
  have h := field_padding_sum width align s ha hmin hmax
  omega

/-- The same count on the sink: where the difference fits the type int and the
global uiout writes to the sink of the ui_out object, the sink grows by exactly
max(width, length(s)) + 1 characters. -/
theorem cli_field_string_sink_width_in_range (w : World) (c : Nat) (fldno width : Int)
    (align : ui_align) (fldname : Option (List Char)) (s : List Char)
    (hsup : (w.data c).suppress_output = 0) (ha : align ≠ ui_noalign)
    (hg : (w.data w.uiout).stream = (w.data c).stream)
    (hmin : INT_MIN ≤ width - (s.length : Int)) (hmax : width ≤ INT_MAX) :
    ((sink_content (cli_field_string w c fldno width align fldname (some s))
        (w.data c).stream).length : Int) =
      (sink_content w (w.data c).stream).length + (max width (s.length : Int) + 1) := by
  rw [sink_field_string_length w c fldno width align fldname s hsup ha hg]
  have h := field_padding_sum width align s ha hmin hmax
  omega

/-! ## A NULL string, and the field function that does not align -/

/-- On a ui_out object that is not suppressed, a skipped field with an
alignment other than ui_noalign and a width w > 0 of type int is w spaces and
the separator. -/
theorem cli_field_skip_spaces (w : World) (c : Nat) (fldno width : Int)
    (alignment : ui_align) (fldname : Option (List Char))
    (hs : (w.data c).suppress_output = 0) (ha : alignment ≠ ui_noalign)
    (hpos : 0 < width) (hmax : width ≤ INT_MAX) :
    cli_field_skip w c fldno width alignment fldname =
      w.log (put_spaces (w.data c).stream width.toNat
        ++ [ui_event.putc (w.data w.uiout).stream ' ']) := by
  have hlen : ((([] : List Char).length : Nat) : Int) ≤ width := by
    simp only [List.length_nil, Nat.cast_zero]; omega
  have e1 : (width - width / 2).toNat + (width / 2).toNat = width.toNat := by omega
  have heq : cli_field_skip w c fldno width alignment fldname =
      cli_field_string w c fldno width alignment fldname (some []) := by
    simp [cli_field_skip, ui_out_data_of, hs]
  rw [heq, cli_field_string_eq w c fldno width alignment fldname (some []) hs,
    field_padding_fits width alignment [] hlen hmax]
  cases alignment with
  | ui_noalign => exact absurd rfl ha
  | ui_right => simp [put_string, put_spaces]
  | ui_left => simp [put_string, put_spaces]
  | ui_center =>
    simp only [put_string, List.map_nil, List.append_nil, put_spaces_add, List.length_nil,
      Nat.cast_zero, sub_zero, e1]
    simp

/-- C18: on a ui_out object that is not suppressed, cli_field_string with a
NULL string writes no padding and no content, whatever the width: for an
alignment other than ui_noalign the one separator is all it writes, for
ui_noalign it writes nothing.  cli_field_skip with the same alignment and a
width w > 0 of type int writes w spaces and the separator, which is a
different result. -/
theorem cli_field_string_null (w : World) (c : Nat) (fldno width : Int)
    (fldname : Option (List Char)) (hsup : (w.data c).suppress_output = 0) :
    field_padding width ui_left none = (0, 0)
    ∧ (∀ align : ui_align, align ≠ ui_noalign →
        cli_field_string w c fldno width align fldname none =
          w.log [ui_event.putc (w.data w.uiout).stream ' '])
    ∧ cli_field_string w c fldno width ui_noalign fldname none = w
    ∧ (∀ align : ui_align, align ≠ ui_noalign → 0 < width → width ≤ INT_MAX →
        cli_field_skip w c fldno width align fldname =
            w.log (put_spaces (w.data c).stream width.toNat
              ++ [ui_event.putc (w.data w.uiout).stream ' '])
        ∧ cli_field_skip w c fldno width align fldname ≠
            cli_field_string w c fldno width align fldname none) := by
  have hnull : ∀ align : ui_align, align ≠ ui_noalign →
      cli_field_string w c fldno width align fldname none =
        w.log [ui_event.putc (w.data w.uiout).stream ' '] := by
    intro align ha
    rw [cli_field_string_eq w c fldno width align fldname none hsup]
    simp [field_padding, put_spaces, ha]
  refine ⟨rfl, hnull, ?_, ?_⟩
  · rw [cli_field_string_eq w c fldno width ui_noalign fldname none hsup]
    simp [field_padding, put_spaces, log_nil]
  · intro align ha hpos hmax
    have hskip := cli_field_skip_spaces w c fldno width align fldname hsup ha hpos hmax
    refine ⟨hskip, ?_⟩
    rw [hskip, hnull align ha]
    intro h
    have hl := congrArg (fun v : World => v.events.length) h
    simp only [log_events, List.length_append, put_spaces_length, List.length_singleton] at hl
    omega

/-- Witness for C18: width 3, left, on the ui_out object 0: the NULL string
gives the separator alone, the skipped field three spaces and the separator. -/
theorem cli_field_string_null_witness :
    (world0.data 0).suppress_output = 0 ∧ ui_left ≠ ui_noalign ∧ (0 : Int) < 3
    ∧ (3 : Int) ≤ INT_MAX
    ∧ sink_content (cli_field_string world0 0 0 3 ui_left none none) 0 = [' ']
    ∧ sink_content (cli_field_skip world0 0 0 3 ui_left none) 0 = [' ', ' ', ' ', ' ']
    ∧ cli_field_skip world0 0 0 3 ui_left none ≠ cli_field_string world0 0 0 3 ui_left none none :=
  ⟨by decide, by decide, by decide, by decide, by
    rw [(cli_field_string_null world0 0 0 3 none (by decide)).2.1 ui_left (by decide)]
    decide, by decide,
    ((cli_field_string_null world0 0 0 3 none (by decide)).2.2.2 ui_left (by decide)
      (by decide) (by decide)).2⟩

/-- C19: on a ui_out object that is not suppressed, for every width and
alignment, cli_field_fmt writes the formatted text with no padding at all,
followed by exactly one separator if and only if the alignment is not
ui_noalign; the width has no influence on the result; on a suppressed object
it writes nothing.  The three other field functions do pad: at width 3, left,
they fill the column while cli_field_fmt does not. -/
theorem cli_field_fmt_does_not_align (w : World) (c : Nat) (fldno width : Int)
    (align : ui_align) (fldname : Option (List Char)) (formatted : List Char) :
    ((w.data c).suppress_output = 0 →
        cli_field_fmt w c fldno width align fldname formatted =
          w.log (put_string (w.data c).stream formatted
            ++ (if align ≠ ui_noalign then [ui_event.putc (w.data w.uiout).stream ' ']
                else [])))
    ∧ (∀ width2 : Int,
        cli_field_fmt w c fldno width2 align fldname formatted =
          cli_field_fmt w c fldno width align fldname formatted)
    ∧ ((w.data c).suppress_output ≠ 0 →
        cli_field_fmt w c fldno width align fldname formatted = w)
    ∧ sink_content (cli_field_fmt world0 0 0 3 ui_left none ['x']) 0 = ['x', ' ']
    ∧ sink_content (cli_field_string world0 0 0 3 ui_left none (some ['x'])) 0
        = ['x', ' ', ' ', ' ']
    ∧ sink_content (cli_field_int world0 0 0 3 ui_left none 7) 0 = ['7', ' ', ' ', ' ']
    ∧ sink_content (cli_field_skip world0 0 0 3 ui_left none) 0 = [' ', ' ', ' ', ' '] := by
  refine ⟨?_, fun _ => rfl, ?_, by decide, by decide, by decide, by decide⟩
  · intro hs
    by_cases ha : align = ui_noalign
    · simp [cli_field_fmt, ui_out_data_of, hs, ha, vfprintf_filtered]
    · simp [cli_field_fmt, ui_out_data_of, hs, ha, vfprintf_filtered, field_separator,
        fputc_filtered, log_log, log_data, log_uiout]
  · intro hs
    simp [cli_field_fmt, ui_out_data_of, hs]

/-- Witness for C19: the text ab with width 9, right, on the ui_out object 0 is
ab and the separator; on the suppressed object nothing is written. -/
theorem cli_field_fmt_does_not_align_witness :
    (world0.data 0).suppress_output = 0
    ∧ sink_content (cli_field_fmt world0 0 0 9 ui_right none ['a', 'b']) 0 = ['a', 'b', ' ']
    ∧ (((cli_table_begin world0 0 1 0 none).world).data 0).suppress_output ≠ 0
    ∧ cli_field_fmt (cli_table_begin world0 0 1 0 none).world 0 0 9 ui_right none ['a', 'b']
        = (cli_table_begin world0 0 1 0 none).world :=
  ⟨by decide, by
    rw [(cli_field_fmt_does_not_align world0 0 0 9 ui_right none ['a', 'b']).1 (by decide)]
    decide, by decide,
    (cli_field_fmt_does_not_align (cli_table_begin world0 0 1 0 none).world 0 0 9 ui_right
      none ['a', 'b']).2.2.1 (by decide)⟩

/-! ## The reachable states of the suppression flag -/

theorem cli_field_string_data (w : World) (c : Nat) (fldno width : Int) (align : ui_align)
    (fldname string : Option (List Char)) :
    (cli_field_string w c fldno width align fldname string).data = w.data := by
  by_cases hs : (w.data c).suppress_output = 0
  · rw [cli_field_string_eq w c fldno width align fldname string hs]
    rfl
  · simp [cli_field_string, ui_out_data_of, hs]

/-- Every call other than table begin and table end returns and leaves the
ui_out_data of every object as it was. -/
theorem run_call_data (w : World) (c : Nat) (x : Call)
    (hx : x.is_table_begin_or_end = false) :
    run_call w c x = Outcome.returned (run_call w c x).world
    ∧ (run_call w c x).world.data = w.data := by
  cases x with
  | table_begin n r t => simp [Call.is_table_begin_or_end] at hx
  | table_end => simp [Call.is_table_begin_or_end] at hx
  | table_body =>
    refine ⟨rfl, ?_⟩
    simp only [run_call, Outcome.world, cli_table_body, cli_text, fputs_filtered]
    split_ifs <;> rfl
  | table_header wd a cn ch =>
    refine ⟨rfl, ?_⟩
    simp only [run_call, Outcome.world, cli_table_header]
    split_ifs
    · rfl
    · exact cli_field_string_data _ _ _ _ _ _ _
  | list_begin t l i => exact ⟨rfl, by simp [run_call, Outcome.world, cli_begin]⟩
  | list_end t l => exact ⟨rfl, by simp [run_call, Outcome.world, cli_end]⟩
  | field_int f wd a n v =>
    refine ⟨rfl, ?_⟩
    simp only [run_call, Outcome.world, cli_field_int]
    split_ifs
    · rfl
    · exact cli_field_string_data _ _ _ _ _ _ _
  | field_skip f wd a n =>
    refine ⟨rfl, ?_⟩
    simp only [run_call, Outcome.world, cli_field_skip]
    split_ifs
    · rfl
    · exact cli_field_string_data _ _ _ _ _ _ _
  | field_string f wd a n s => exact ⟨rfl, cli_field_string_data _ _ _ _ _ _ _⟩
  | field_fmt f wd a n s =>
    refine ⟨rfl, ?_⟩
    simp only [run_call, Outcome.world, cli_field_fmt, vfprintf_filtered, field_separator,
      fputc_filtered]
    split_ifs <;> rfl
  | spaces n =>
    refine ⟨rfl, ?_⟩
    simp only [run_call, Outcome.world, cli_spaces, print_spaces_filtered]
    split_ifs <;> rfl
  | text s =>
    refine ⟨rfl, ?_⟩
    simp only [run_call, Outcome.world, cli_text, fputs_filtered]
    split_ifs <;> rfl
  | text_fmt s =>
    refine ⟨rfl, ?_⟩
    simp only [run_call, Outcome.world, cli_text_fmt, vfprintf_filtered]
    split_ifs <;> rfl
  | message v s =>
    refine ⟨rfl, ?_⟩
    simp only [run_call, Outcome.world, cli_message, vfprintf_unfiltered]
    split_ifs <;> rfl
  | wrap_hint i =>
    refine ⟨rfl, ?_⟩
    simp only [run_call, Outcome.world, cli_wrap_hint, wrap_here]
    split_ifs <;> rfl
  | flush => exact ⟨rfl, rfl⟩

theorem is_table_end_of_other (x : Call) (h : x.is_table_begin_or_end = false) :
    x.is_table_end = false := by
  cases x <;> first | rfl | simp [Call.is_table_begin_or_end] at h

theorem is_zero_row_begin_of_other (x : Call) (h : x.is_table_begin_or_end = false) :
    x.is_zero_row_begin = false := by
  cases x <;> first | rfl | simp [Call.is_table_begin_or_end] at h

theorem since_last_table_end_snoc (cs : List Call) (x : Call) :
    since_last_table_end (cs ++ [x]) =
      if x.is_table_end then [] else since_last_table_end cs ++ [x] := by
  unfold since_last_table_end
  rw [List.reverse_append, List.reverse_singleton, List.singleton_append, List.takeWhile_cons]
  by_cases hx : x.is_table_end = true
  · simp [hx]
  · simp [hx]

theorem zero_row_table_pending_snoc (cs : List Call) (x : Call) :
    zero_row_table_pending (cs ++ [x]) =
      if x.is_table_end then false else (zero_row_table_pending cs || x.is_zero_row_begin) := by
  unfold zero_row_table_pending
  rw [since_last_table_end_snoc]
  by_cases hx : x.is_table_end = true
  · simp [hx]
  · simp [hx, List.any_append]

/-- After calls that did not fail, started where the object is not suppressed,
the flag is set exactly when a zero-row table begin is pending. -/
theorem suppress_output_after_calls (w : World) (c : Nat)
    (h0 : (w.data c).suppress_output = 0) (cs : List Call) :
    ∀ w2 : World, run_calls w c cs = Outcome.returned w2 →
      ((w2.data c).suppress_output ≠ 0 ↔ zero_row_table_pending cs = true) := by
  induction cs using List.reverseRecOn with
  | nil =>
    intro w2 h
    simp only [run_calls, Outcome.returned.injEq] at h
    subst h
    simp [h0, zero_row_table_pending, since_last_table_end]
  | append_singleton cs x ih =>
    intro w3 h
    rw [run_calls_append] at h
    cases hcs : run_calls w c cs with
    | internal_error w2 => rw [hcs] at h; simp at h
    | returned w2 =>
      rw [hcs] at h
      simp only [run_calls] at h
      have ih2 := ih w2 hcs
      rw [zero_row_table_pending_snoc]
      by_cases hbe : x.is_table_begin_or_end = true
      · cases x with
        | table_begin n r t =>
          by_cases hr : r = 0
          · simp only [run_call, cli_table_begin, hr, if_true, Outcome.returned.injEq] at h
            subst h
            simp [set_suppress_output, Call.is_table_end, Call.is_zero_row_begin, hr]
          · by_cases hs : (w2.data c).suppress_output = 0
            · simp only [run_call, cli_table_begin, hr, if_false, ui_out_data_of, hs, if_true,
                Outcome.returned.injEq] at h
              subst h
              have hp : zero_row_table_pending cs = false := by
                cases hpc : zero_row_table_pending cs with
                | false => rfl
                | true => exact absurd hs (ih2.mpr hpc)
              simp [hs, hp, Call.is_table_end, Call.is_zero_row_begin, hr]
            · simp [run_call, cli_table_begin, hr, ui_out_data_of, hs] at h
        | table_end =>
          simp only [run_call, cli_table_end, Outcome.returned.injEq] at h
          subst h
          simp [set_suppress_output, Call.is_table_end]
        | _ => simp [Call.is_table_begin_or_end] at hbe
      · have hbe2 : x.is_table_begin_or_end = false := by simpa using hbe
        obtain ⟨hr, hd⟩ := run_call_data w2 c x hbe2
        have hw3 : w3 = (run_call w2 c x).world := by
          cases hx : run_call w2 c x with
          | returned v =>
            rw [hx] at h
            simp only [Outcome.returned.injEq] at h
            simp [Outcome.world, h]
          | internal_error v => rw [hx] at hr; simp at hr
        have hend : x.is_table_end = false := is_table_end_of_other x hbe2
        have hzb : x.is_zero_row_begin = false := is_zero_row_begin_of_other x hbe2
        rw [hw3, hd]
        simp [hend, hzb, ih2]

/-- C17: cli_out_new and cli_quoted_out_new create the ui_out object with
suppress_output = 0; every call other than cli_table_begin and cli_table_end
returns with the ui_out_data of every object unchanged, and cli_begin and
cli_end change nothing at all, so they write nothing; hence after any sequence
of calls on the object none of which failed, started where the flag is 0, the
flag is set exactly when a cli_table_begin with nr_rows = 0 has occurred after
the most recent cli_table_end (or at all, if there was none). -/
theorem suppress_output_reachable (w : World) (c : Nat) :
    (∀ p stream : Nat, ((cli_out_new w p stream).data p).suppress_output = 0)
    ∧ (∀ (mi_console_file_new : Nat → List Char → Nat) (p raw : Nat),
        ((cli_quoted_out_new mi_console_file_new w p raw).data p).suppress_output = 0)
    ∧ (∀ x : Call, x.is_table_begin_or_end = false →
        run_call w c x = Outcome.returned (run_call w c x).world
        ∧ (run_call w c x).world.data = w.data)
    ∧ (∀ (type : ui_out_type) (level : Int) (id : Option (List Char)),
        cli_begin w c type level id = w)
    ∧ (∀ (type : ui_out_type) (level : Int), cli_end w c type level = w)
    ∧ (∀ cs : List Call, (w.data c).suppress_output = 0 →
        (run_calls w c cs).failed = false →
        (((run_calls w c cs).world.data c).suppress_output ≠ 0 ↔
          zero_row_table_pending cs = true)) := by
  refine ⟨?_, ?_, ?_, ?_, ?_, ?_⟩
  · intro p stream
    simp [cli_out_new]
  · intro mi p raw
    simp [cli_quoted_out_new]
  · intro x hx
    exact run_call_data w c x hx
  · intro type level id
    simp [cli_begin]
  · intro type level
    simp [cli_end]
  · intro cs h0 hf
    cases hcs : run_calls w c cs with
    | internal_error w2 => rw [hcs] at hf; simp [Outcome.failed] at hf
    | returned w2 => exact suppress_output_after_calls w c h0 cs w2 hcs

/-- Witness for C17: on the ui_out object 0 created by cli_out_new, a zero-row
table that is ended, then a second zero-row table begin followed by a text and
a list: the flag is set and a zero-row table begin is pending. -/
theorem suppress_output_reachable_witness :
    ((cli_out_new world0 0 5).data 0).suppress_output = 0
    ∧ (run_calls (cli_out_new world0 0 5) 0
        [Call.table_begin 1 0 none, Call.field_int 1 2 ui_left none 7, Call.table_end,
          Call.table_begin 2 0 none, Call.text ['x'],
          Call.list_begin ui_out_type.ui_out_type_list 0 none]).failed = false
    ∧ (((run_calls (cli_out_new world0 0 5) 0
        [Call.table_begin 1 0 none, Call.field_int 1 2 ui_left none 7, Call.table_end,
          Call.table_begin 2 0 none, Call.text ['x'],
          Call.list_begin ui_out_type.ui_out_type_list 0 none]).world.data 0).suppress_output ≠ 0
        ↔ zero_row_table_pending
          [Call.table_begin 1 0 none, Call.field_int 1 2 ui_left none 7, Call.table_end,
            Call.table_begin 2 0 none, Call.text ['x'],
            Call.list_begin ui_out_type.ui_out_type_list 0 none] = true)
    ∧ zero_row_table_pending
          [Call.table_begin 1 0 none, Call.field_int 1 2 ui_left none 7, Call.table_end,
            Call.table_begin 2 0 none, Call.text ['x'],
            Call.list_begin ui_out_type.ui_out_type_list 0 none] = true
    ∧ zero_row_table_pending
          [Call.table_begin 1 0 none, Call.field_int 1 2 ui_left none 7, Call.table_end] = false :=
  ⟨by decide, by decide,
    (suppress_output_reachable (cli_out_new world0 0 5) 0).2.2.2.2.2 _ (by decide) (by decide),
    by decide, by decide⟩

end CliOut

namespace AlphaFbsd

open type_code

/-- The loop returns 0 exactly when every addressable field (bit size 0) has
bit position 0, and 1 otherwise. -/
theorem integer_like_loop_eq_zero (fields : List field) :
    (integer_like_loop fields = 0 ↔ ∀ f ∈ fields, f.bitsize = 0 → f.bitpos = 0)
    ∧ (integer_like_loop fields = 0 ∨ integer_like_loop fields = 1) := by
  induction fields with
  | nil => simp [integer_like_loop]
  | cons f rest ih =>
    by_cases h : f.bitpos ≠ 0 ∧ f.bitsize = 0
    · have e : integer_like_loop (f :: rest) = 1 := by rw [integer_like_loop, if_pos h]
      rw [e]
      refine ⟨⟨fun h1 => absurd h1 (by decide), fun h2 => ?_⟩, Or.inr rfl⟩
      exact absurd (h2 f (List.mem_cons_self f rest) h.2) h.1
    · have e : integer_like_loop (f :: rest) = integer_like_loop rest := by
        rw [integer_like_loop, if_neg h]
      rw [e]
      refine ⟨?_, ih.2⟩
      rw [ih.1]
      constructor
      · intro hr g hg
        rcases List.mem_cons.mp hg with rfl | hg'
        · intro hz
          by_contra hne
          exact h ⟨hne, hz⟩
        · exact hr g hg'
      · intro hall g hg
        exact hall g (List.mem_cons_of_mem f hg)

theorem use_struct_convention_unfold (REGISTER_SIZE : Nat) (gcc_p : Int) (type : gdb_type) :
    alphafbsd_use_struct_convention REGISTER_SIZE gcc_p type =
      if type.length > REGISTER_SIZE then 1
      else if type.code ≠ TYPE_CODE_STRUCT ∧ type.code ≠ TYPE_CODE_UNION then 1
      else integer_like_loop type.fields := rfl

/-- C20: alphafbsd_use_struct_convention returns 0 if and only if the length
of the type is at most REGISTER_SIZE, its code is TYPE_CODE_STRUCT or
TYPE_CODE_UNION, and every field with bit size 0 has bit position 0; in every
other case it returns 1.  So an array and a type longer than a register give
1, a struct or union that fits and whose fields at a bit position other than 0
all are bit fields gives 0, and gcc_p has no influence. -/
theorem alphafbsd_use_struct_convention_spec (REGISTER_SIZE : Nat) (gcc_p : Int)
    (type : gdb_type) :
    (alphafbsd_use_struct_convention REGISTER_SIZE gcc_p type = 0 ↔
        type.length ≤ REGISTER_SIZE
        ∧ (type.code = TYPE_CODE_STRUCT ∨ type.code = TYPE_CODE_UNION)
        ∧ ∀ f ∈ type.fields, f.bitsize = 0 → f.bitpos = 0)
    ∧ (alphafbsd_use_struct_convention REGISTER_SIZE gcc_p type ≠ 0 →
        alphafbsd_use_struct_convention REGISTER_SIZE gcc_p type = 1)
    ∧ (type.code = TYPE_CODE_ARRAY →
        alphafbsd_use_struct_convention REGISTER_SIZE gcc_p type = 1)
    ∧ (type.length > REGISTER_SIZE →
        alphafbsd_use_struct_convention REGISTER_SIZE gcc_p type = 1)
    ∧ (type.length ≤ REGISTER_SIZE →
        (type.code = TYPE_CODE_STRUCT ∨ type.code = TYPE_CODE_UNION) →
        (∀ f ∈ type.fields, f.bitpos ≠ 0 → f.bitsize ≠ 0) →
        alphafbsd_use_struct_convention REGISTER_SIZE gcc_p type = 0)
    ∧ ∀ gcc_p2 : Int,
        alphafbsd_use_struct_convention REGISTER_SIZE gcc_p2 type =
          alphafbsd_use_struct_convention REGISTER_SIZE gcc_p type := by
  have hiff : alphafbsd_use_struct_convention REGISTER_SIZE gcc_p type = 0 ↔
      type.length ≤ REGISTER_SIZE
      ∧ (type.code = TYPE_CODE_STRUCT ∨ type.code = TYPE_CODE_UNION)
      ∧ ∀ f ∈ type.fields, f.bitsize = 0 → f.bitpos = 0 := by
    rw [use_struct_convention_unfold]
    by_cases hl : type.length > REGISTER_SIZE
    · rw [if_pos hl]
      constructor
      · intro h; exact absurd h (by decide)
      · intro h; omega
    · rw [if_neg hl]
      by_cases hc : type.code ≠ TYPE_CODE_STRUCT ∧ type.code ≠ TYPE_CODE_UNION
      · rw [if_pos hc]
        constructor
        · intro h; exact absurd h (by decide)
        · intro h
          rcases h.2.1 with h1 | h1
          · exact absurd h1 hc.1
          · exact absurd h1 hc.2
      · rw [if_neg hc, (integer_like_loop_eq_zero type.fields).1]
        have hc2 : type.code = TYPE_CODE_STRUCT ∨ type.code = TYPE_CODE_UNION := by
          by_contra hne
          exact hc ⟨fun h => hne (Or.inl h), fun h => hne (Or.inr h)⟩
        constructor
        · intro h; exact ⟨by omega, hc2, h⟩
        · intro h; exact h.2.2
  have h01 : alphafbsd_use_struct_convention REGISTER_SIZE gcc_p type = 0
      ∨ alphafbsd_use_struct_convention REGISTER_SIZE gcc_p type = 1 := by
    rw [use_struct_convention_unfold]
    by_cases hl : type.length > REGISTER_SIZE
    · rw [if_pos hl]; exact Or.inr rfl
    · rw [if_neg hl]
      by_cases hc : type.code ≠ TYPE_CODE_STRUCT ∧ type.code ≠ TYPE_CODE_UNION
      · rw [if_pos hc]; exact Or.inr rfl
      · rw [if_neg hc]; exact (integer_like_loop_eq_zero type.fields).2
  have hone : ∀ P : Prop,
      (alphafbsd_use_struct_convention REGISTER_SIZE gcc_p type = 0 → P → False) → P →
      alphafbsd_use_struct_convention REGISTER_SIZE gcc_p type = 1 := by
    intro P hP hp
    rcases h01 with h | h
    · exact absurd hp (hP h)
    · exact h
  refine ⟨hiff, ?_, ?_, ?_, ?_, fun _ => rfl⟩
  · intro hne
    rcases h01 with h | h
    · exact absurd h hne
    · exact h
  · intro harr
    apply hone _ _ harr
    intro h0 ha
    rcases (hiff.mp h0).2.1 with h1 | h1
    · rw [ha] at h1; exact absurd h1 (by decide)
    · rw [ha] at h1; exact absurd h1 (by decide)
  · intro hlen
    apply hone _ _ hlen
    intro h0 hl
    have := (hiff.mp h0).1
    omega
  · intro hl hc hf
    apply hiff.mpr
    refine ⟨hl, hc, ?_⟩
    intro f hfm hz
    by_contra hne
    exact hf f hfm hne hz

/-- Witness for C20, with REGISTER_SIZE = 8: a struct of 4 bytes whose second
field is a bit field at bit 3 is returned in a register; the same struct with
an addressable field at bit 32 is returned in memory, and so is an array. -/
theorem alphafbsd_use_struct_convention_spec_witness :
    (4 : Nat) ≤ 8
    ∧ ((gdb_type.mk 4 TYPE_CODE_STRUCT [field.mk 0 3, field.mk 3 5]).code = TYPE_CODE_STRUCT
        ∨ (gdb_type.mk 4 TYPE_CODE_STRUCT [field.mk 0 3, field.mk 3 5]).code = TYPE_CODE_UNION)
    ∧ (∀ f ∈ (gdb_type.mk 4 TYPE_CODE_STRUCT [field.mk 0 3, field.mk 3 5]).fields,
        f.bitpos ≠ 0 → f.bitsize ≠ 0)
    ∧ alphafbsd_use_struct_convention 8 1
        (gdb_type.mk 4 TYPE_CODE_STRUCT [field.mk 0 3, field.mk 3 5]) = 0
    ∧ alphafbsd_use_struct_convention 8 1
        (gdb_type.mk 8 TYPE_CODE_STRUCT [field.mk 0 0, field.mk 32 0]) = 1
    ∧ alphafbsd_use_struct_convention 8 1 (gdb_type.mk 8 TYPE_CODE_ARRAY []) = 1
    ∧ alphafbsd_use_struct_convention 8 1 (gdb_type.mk 9 TYPE_CODE_STRUCT []) = 1 :=
  ⟨by decide, by decide, by decide,
    (alphafbsd_use_struct_convention_spec 8 1
      (gdb_type.mk 4 TYPE_CODE_STRUCT [field.mk 0 3, field.mk 3 5])).2.2.2.2.1
      (by decide) (by decide) (by decide),
    by decide,
    (alphafbsd_use_struct_convention_spec 8 1 (gdb_type.mk 8 TYPE_CODE_ARRAY [])).2.2.1 rfl,
    (alphafbsd_use_struct_convention_spec 8 1 (gdb_type.mk 9 TYPE_CODE_STRUCT [])).2.2.2.1
      (by decide)⟩

end AlphaFbsd
